import Mathlib

/-!
# tym: configuration and dispatch core

Shallow embedding of `src/context.c`.

* The aggregate `Context` is passed explicitly; every function that mutates it
  returns the new aggregate.
* A function that can hit a fatal programmer error (a schema lookup for an
  unknown name, a failed `assert`) returns `Option`; `none` is the abort.
* Function pointers stored in the schema (`getter`, `setter`) are addresses;
  the code behind them (`property.c`), the built-in commands (`command.c`),
  the script keymap (`keymap.c`), the Lua interpreter and the GLib/GDK helpers
  live outside `context.c` and are collected in `Env`.
* Calls into collaborators (notification sink, terminal widget, command
  palette) are recorded, in order, in `Context.calls`.
* Diagnostic output (`g_message`, `g_warning`, `dd`, `df`) is not part of the
  state and is left out.
-/

namespace Tym

/-! ## Data model -/

/-- Kind tag of a schema entry. -/
inductive MetaEntryType where
  | META_ENTRY_TYPE_STRING
  | META_ENTRY_TYPE_INTEGER
  | META_ENTRY_TYPE_BOOLEAN
  | META_ENTRY_TYPE_NONE
  deriving DecidableEq, Repr

/-- The pointee of `default_value` together with the kind that tells how to
read it: `char*` for strings, `int*` for integers, `bool*` for booleans. -/
inductive MetaValue where
  | str (s : String)
  | int (i : Int)
  | bool (b : Bool)
  | none
  deriving DecidableEq, Repr

/-- Modelled from the spec: the declaration of `MetaEntry` is not part of
`context.c`. A schema entry is the record `(name, kind, default_value,
getter?, setter?)`; the kind is carried by the tag of `default_value`, the two
hook slots hold the address of the hook or nothing. -/
structure MetaEntry where
  name : String
  default_value : MetaValue
  getter : Option Nat
  setter : Option Nat
  deriving DecidableEq, Repr

/-- The field `e->type`. -/
def MetaEntry.type (e : MetaEntry) : MetaEntryType :=
  match e.default_value with
  | .str _ => .META_ENTRY_TYPE_STRING
  | .int _ => .META_ENTRY_TYPE_INTEGER
  | .bool _ => .META_ENTRY_TYPE_BOOLEAN
  | .none => .META_ENTRY_TYPE_NONE

/-- The cast `(char*)e->default_value`; defined for string entries only. -/
def MetaEntry.default_str (e : MetaEntry) : Option String :=
  match e.default_value with
  | .str s => some s
  | _ => Option.none

/-- The cast `*(int*)e->default_value`; defined for integer entries only. -/
def MetaEntry.default_int (e : MetaEntry) : Option Int :=
  match e.default_value with
  | .int i => some i
  | _ => Option.none

/-- The cast `*(bool*)e->default_value`; defined for boolean entries only. -/
def MetaEntry.default_bool (e : MetaEntry) : Option Bool :=
  match e.default_value with
  | .bool b => some b
  | _ => Option.none

/-- Modelled from the spec: the schema registry (`meta.c` is not part of
`context.c`): an insertion-ordered sequence of entries, iterated through
`meta->list` and searched by name. -/
structure Meta where
  list : List MetaEntry
  deriving DecidableEq, Repr

/-- Modelled from the spec: `lookup(name)`, which fails when the name has no
schema entry. -/
def meta_get_entry (m : Meta) (key : String) : Option MetaEntry :=
  m.list.find? (fun e => e.name == key)

/-- Modelled from the spec: the configuration store (`config.c` is not part
of `context.c`): three disjoint mappings keyed by name, built over the
schema. -/
structure Config where
  schema : Meta
  strs : List (String × String)
  ints : List (String × Int)
  bools : List (String × Bool)
  deriving DecidableEq, Repr

/-- Modelled from the spec: the store right after `config_init(meta)`. -/
def config_init (m : Meta) : Config :=
  { schema := m, strs := [], ints := [], bools := [] }

/-- Replace the binding of `key` in an association list. -/
def assoc_set {β : Type} (key : String) (value : β) (l : List (String × β)) :
    List (String × β) :=
  (key, value) :: l.filter (fun p => !(p.1 == key))

/-- Modelled from the spec: string read; an unset key reads as the default of
the schema, an unknown name is fatal. -/
def config_get_str (config : Config) (key : String) : Option String :=
  match config.strs.lookup key with
  | some v => some v
  | Option.none =>
    match meta_get_entry config.schema key with
    | some e => e.default_str
    | Option.none => Option.none

/-- Modelled from the spec: integer read. -/
def config_get_int (config : Config) (key : String) : Option Int :=
  match config.ints.lookup key with
  | some v => some v
  | Option.none =>
    match meta_get_entry config.schema key with
    | some e => e.default_int
    | Option.none => Option.none

/-- Modelled from the spec: boolean read. -/
def config_get_bool (config : Config) (key : String) : Option Bool :=
  match config.bools.lookup key with
  | some v => some v
  | Option.none =>
    match meta_get_entry config.schema key with
    | some e => e.default_bool
    | Option.none => Option.none

/-- Modelled from the spec: string write (the store keeps its own copy). -/
def config_set_str (config : Config) (key value : String) : Config :=
  { config with strs := assoc_set key value config.strs }

/-- Modelled from the spec: integer write. -/
def config_set_int (config : Config) (key : String) (value : Int) : Config :=
  { config with ints := assoc_set key value config.ints }

/-- Modelled from the spec: boolean write. -/
def config_set_bool (config : Config) (key : String) (value : Bool) : Config :=
  { config with bools := assoc_set key value config.bools }

/-- Modelled from the spec: the option overrides (`option.c` is not part of
`context.c`): the two script paths, the switch that disables scripting and a
mapping from names to kind-tagged values supplied on the command line. -/
structure TymOption where
  config_path : Option String
  theme_path : Option String
  nolua : Bool
  values : List (String × MetaValue)
  deriving DecidableEq, Repr

/-- Modelled from the spec: `use` path of the config script. -/
def option_get_config_path (o : TymOption) : Option String := o.config_path

/-- Modelled from the spec: path of the theme script. -/
def option_get_theme_path (o : TymOption) : Option String := o.theme_path

/-- Modelled from the spec: whether scripting is disabled. -/
def option_get_nolua (o : TymOption) : Bool := o.nolua

/-- Modelled from the spec: `has_value` and the value for a string option;
`some v` stands for `has_value = true` with `*value = v`. -/
def option_get_str_value (o : TymOption) (key : String) : Option String :=
  match o.values.lookup key with
  | some (.str v) => some v
  | _ => Option.none

/-- Modelled from the spec: `has_value` and the value for an integer option. -/
def option_get_int_value (o : TymOption) (key : String) : Option Int :=
  match o.values.lookup key with
  | some (.int v) => some v
  | _ => Option.none

/-- Modelled from the spec: `has_value` and the value for a boolean option. -/
def option_get_bool_value (o : TymOption) (key : String) : Option Bool :=
  match o.values.lookup key with
  | some (.bool v) => some v
  | _ => Option.none

/-- The functions a `TymCommandFunc` pointer in `context.c` can point to. -/
inductive TymCommandFunc where
  | command_copy_clipboard
  | command_paste_clipboard
  | command_reload
  | command_reload_theme
  deriving DecidableEq, Repr

/-- Row of the default key table; `func` is `none` in the terminating row. -/
structure KeyPair where
  key : Nat
  mod : Nat
  func : Option TymCommandFunc
  deriving DecidableEq, Repr

/-- Row of the signal table; both fields are null in the terminating row. -/
structure SignalDefinition where
  name : Option String
  func : Option TymCommandFunc
  deriving DecidableEq, Repr

/-- A colour as handed to the terminal widget (channels in fixed point). -/
structure GdkRGBA where
  red : Nat
  green : Nat
  blue : Nat
  alpha : Nat
  deriving DecidableEq, Repr

/-- A call into a collaborator. A notification whose body pointer is null is
`notification_null_body`. -/
inductive Call where
  | notification (title body icon : String)
  | notification_null_body (title icon : String)
  | set_colors (palette : List GdkRGBA)
  | command (f : TymCommandFunc)
  deriving DecidableEq, Repr

/-- Modelled from the spec: a script key binding `(key, mask)` with the
registry reference of its callable (`keymap.c` is not part of `context.c`). -/
structure KeymapEntry where
  key : Nat
  mod : Nat
  ref : Nat
  deriving DecidableEq, Repr

/-- The embedded interpreter (a handle). -/
structure lua_State where
  id : Nat
  deriving DecidableEq, Repr

/-- The member `state` of the aggregate. -/
structure State where
  loading : Bool
  deriving DecidableEq, Repr

/-- The aggregate. `lua` is `none` when scripting is disabled. -/
structure Context where
  meta : Meta
  option : TymOption
  config : Config
  keymap : List KeymapEntry
  lua : Option lua_State
  state : State
  calls : List Call
  deriving DecidableEq, Repr

/-- What `keymap_perform` hands back: its return value, the two out
parameters and the aggregate after the handler (if any) ran. -/
structure KeymapPerform where
  ret : Bool
  result : Bool
  error : Option String
  context : Context

/-- What running a script file hands back: the status code, what
`lua_tostring(L, -1)` yields for the value left on top of the stack when the
status is not `LUA_OK` (null when the error object is neither a string nor a
number), and the aggregate after the run. -/
structure LuaRun where
  status : Nat
  error : Option String
  context : Context

/-- A Lua value other than the table a theme returns, as far as
`lua_tostring` tells values apart: a number is carried as the text it
converts to, a value that does not convert (table, function, userdata) by its
type name. -/
inductive LuaValue where
  | nil
  | boolean (b : Bool)
  | number (text : String)
  | string (s : String)
  | other (typename : String)
  deriving DecidableEq, Repr

/-- The conversion `lua_tostring`: strings and numbers convert, anything else
yields a null pointer. -/
def lua_tostring : LuaValue → Option String
  | .number text => some text
  | .string s => some s
  | _ => Option.none

/-- What a chunk leaves on the stack: a table, given by its entries in the
order `lua_next` visits them, or another value. -/
inductive LuaResult where
  | value (v : LuaValue)
  | table (entries : List (LuaValue × LuaValue))
  deriving DecidableEq, Repr

/-- What `lua_pcall` on a loaded chunk hands back: the status code, what
`lua_tostring(L, -1)` yields for the error object when the status is not
`LUA_OK` (null when it is neither a string nor a number), the value on top of
the stack when the status is `LUA_OK`, and the aggregate after the run. -/
structure LuaCall where
  status : Nat
  error : Option String
  result : LuaResult
  context : Context

/-- Code and constants that `context.c` uses but does not define. -/
structure Env where
  str_getter : Nat → Context → String → String
  int_getter : Nat → Context → String → Int
  bool_getter : Nat → Context → String → Bool
  str_setter : Nat → Context → String → String → Context
  int_setter : Nat → Context → String → Int → Context
  bool_setter : Nat → Context → String → Bool → Context
  command : TymCommandFunc → Context → Context
  keymap_perform : Context → Nat → Nat → KeymapPerform
  luaL_dofile : Context → String → LuaRun
  luaL_loadfile : Context → String → Bool
  lua_pcall : Context → String → LuaCall
  g_file_test_exists : String → Bool
  g_path_is_absolute : String → Bool
  g_build_path : List String → String
  g_get_user_config_dir : String
  g_get_current_dir : String
  gdk_rgba_parse : String → Option GdkRGBA
  TYM_CONFIG_DIR_NAME : String
  TYM_CONFIG_FILE_NAME : String
  TYM_THEME_FILE_NAME : String
  TYM_SYMBOL_NONE : String

/-! ## Constants -/

def GDK_KEY_c : Nat := 0x063
def GDK_KEY_v : Nat := 0x076
def GDK_KEY_r : Nat := 0x072
def GDK_SHIFT_MASK : Nat := 1
def GDK_LOCK_MASK : Nat := 2
def GDK_CONTROL_MASK : Nat := 4
def GDK_MOD2_MASK : Nat := 16

def TYM_DEFAULT_NOTIFICATION_TITLE : String := "tym"

/-- The status code of a Lua call that succeeded. -/
def LUA_OK : Nat := 0

/-- The status code of a Lua call that raised a runtime error. -/
def LUA_ERRRUN : Nat := 2

def DEFAULT_KEY_PAIRS : List KeyPair :=
  [ { key := GDK_KEY_c, mod := GDK_CONTROL_MASK ||| GDK_SHIFT_MASK,
      func := some .command_copy_clipboard },
    { key := GDK_KEY_v, mod := GDK_CONTROL_MASK ||| GDK_SHIFT_MASK,
      func := some .command_paste_clipboard },
    { key := GDK_KEY_r, mod := GDK_CONTROL_MASK ||| GDK_SHIFT_MASK,
      func := some .command_reload },
    { key := 0, mod := 0, func := Option.none } ]

def SIGNALS : List SignalDefinition :=
  [ { name := some "ReloadTheme", func := some .command_reload_theme },
    { name := Option.none, func := Option.none } ]

/-! ## Operations of `context.c` -/

/-- Modelled from the spec: the macro `is_none` is not part of `context.c`;
it recognises the explicit suppression sentinel (a null path is not the
sentinel). -/
def is_none (env : Env) (path : Option String) : Bool :=
  path == some env.TYM_SYMBOL_NONE

def context_acquire_config_path (env : Env) (context : Context) : Option String :=
  let path := option_get_config_path context.option
  if is_none env path then Option.none
  else
    match path with
    | Option.none =>
      some (env.g_build_path
        [env.g_get_user_config_dir, env.TYM_CONFIG_DIR_NAME, env.TYM_CONFIG_FILE_NAME])
    | some p =>
      if env.g_path_is_absolute p then some p
      else some (env.g_build_path [env.g_get_current_dir, p])

/-- The notification that is sent for a title, a body pointer and an icon
name. -/
def notification_call (title : String) (body : Option String) (icon : String) : Call :=
  match body with
  | some text => Call.notification title text icon
  | Option.none => Call.notification_null_body title icon

/-- Sends a notification: the title falls back to the default one, the icon
name is read from the store, the body pointer is passed on as it is (it may
be null). -/
def context_notify (context : Context) (body : Option String) (title : Option String) :
    Option Context :=
  match config_get_str context.config "icon" with
  | Option.none => Option.none
  | some icon =>
    some { context with
      calls := context.calls ++
        [notification_call (title.getD TYM_DEFAULT_NOTIFICATION_TITLE) body icon] }

/-- The error pointer may be null (an error object that `lua_tostring` does
not convert). -/
def context_on_lua_error (context : Context) (error : Option String) : Option Context :=
  context_notify context error (some "tym: lua error")

def context_get_str (env : Env) (context : Context) (key : String) : Option String :=
  match meta_get_entry context.meta key with
  | Option.none => Option.none
  | some e =>
    match e.getter with
    | some g => some (env.str_getter g context key)
    | Option.none => config_get_str context.config key

def context_get_int (env : Env) (context : Context) (key : String) : Option Int :=
  match meta_get_entry context.meta key with
  | Option.none => Option.none
  | some e =>
    match e.getter with
    | some g => some (env.int_getter g context key)
    | Option.none => config_get_int context.config key

def context_get_bool (env : Env) (context : Context) (key : String) : Option Bool :=
  match meta_get_entry context.meta key with
  | Option.none => Option.none
  | some e =>
    match e.getter with
    | some g => some (env.bool_getter g context key)
    | Option.none => config_get_bool context.config key

def context_set_str (env : Env) (context : Context) (key value : String) :
    Option Context :=
  match meta_get_entry context.meta key with
  | Option.none => Option.none
  | some e =>
    match e.setter with
    | some f => some (env.str_setter f context key value)
    | Option.none =>
      match e.getter with
      | Option.none =>
        some { context with config := config_set_str context.config key value }
      | some _ => some context

def context_set_int (env : Env) (context : Context) (key : String) (value : Int) :
    Option Context :=
  match meta_get_entry context.meta key with
  | Option.none => Option.none
  | some e =>
    match e.setter with
    | some f => some (env.int_setter f context key value)
    | Option.none =>
      match e.getter with
      | Option.none =>
        some { context with config := config_set_int context.config key value }
      | some _ => some context

def context_set_bool (env : Env) (context : Context) (key : String) (value : Bool) :
    Option Context :=
  match meta_get_entry context.meta key with
  | Option.none => Option.none
  | some e =>
    match e.setter with
    | some f => some (env.bool_setter f context key value)
    | Option.none =>
      match e.getter with
      | Option.none =>
        some { context with config := config_set_bool context.config key value }
      | some _ => some context

/-- The white space that `g_ascii_strtoull` skips. -/
def ISSPACE (c : Char) : Bool :=
  c == ' ' || c == Char.ofNat 12 || c == Char.ofNat 10 || c == Char.ofNat 13 ||
    c == Char.ofNat 9 || c == Char.ofNat 11

/-- The offset `target - nptr` after `g_ascii_strtoull(nptr, &target, 10)`
(GLib): leading white space and one optional sign are skipped, then decimal
digits are converted; when there is no digit, nothing is converted and the
offset is 0. The converted number itself is discarded by the caller. -/
def g_ascii_strtoull_end (nptr : List Char) : Nat :=
  let s := nptr.dropWhile ISSPACE
  let s1 :=
    match s with
    | '-' :: r => r
    | '+' :: r => r
    | _ => s
  let digits := s1.takeWhile Char.isDigit
  if digits.isEmpty then 0 else (nptr.length - s1.length) + digits.length

/-- The test at the head of the loop of `context_restore_default` that ends in
`continue`: the name begins with `color_` and `g_ascii_strtoull` converts
something right after it. -/
def restore_default_skips (name : String) : Bool :=
  if name.toList.take 6 == "color_".toList then
    g_ascii_strtoull_end (name.toList.drop 6) != 0
  else false

/-- The first loop of `context_restore_default`, over `meta->list`. -/
def restore_default_loop (env : Env) : List MetaEntry → Context → Option Context
  | [], context => some context
  | e :: li, context =>
    if restore_default_skips e.name then restore_default_loop env li context
    else
      let key := e.name
      match e.default_value with
      | .str s =>
        match context_set_str env context key s with
        | Option.none => Option.none
        | some context1 => restore_default_loop env li context1
      | .int i =>
        match context_set_int env context key i with
        | Option.none => Option.none
        | some context1 => restore_default_loop env li context1
      | .bool b =>
        match context_set_bool env context key b with
        | Option.none => Option.none
        | some context1 => restore_default_loop env li context1
      | .none => restore_default_loop env li context

/-- The second loop of `context_restore_default`: `remaining` more rounds
starting at index `i`; yields `palette[i..]`. A missing entry or a failed
`assert` aborts. -/
def restore_default_palette (env : Env) (m : Meta) : (remaining : Nat) → (i : Nat) →
    Option (List GdkRGBA)
  | 0, _ => some []
  | n + 1, i =>
    match meta_get_entry m ("color_" ++ toString i) with
    | Option.none => Option.none
    | some e =>
      match e.default_str with
      | Option.none => Option.none
      | some s =>
        match env.gdk_rgba_parse s with
        | Option.none => Option.none
        | some c =>
          match restore_default_palette env m n (i + 1) with
          | Option.none => Option.none
          | some rest => some (c :: rest)

def context_restore_default (env : Env) (context : Context) : Option Context :=
  match restore_default_loop env context.meta.list context with
  | Option.none => Option.none
  | some context1 =>
    match restore_default_palette env context1.meta 16 0 with
    | Option.none => Option.none
    | some palette =>
      some { context1 with calls := context1.calls ++ [Call.set_colors palette] }

/-- The loop of `context_override_by_option`, over `meta->list`. -/
def override_by_option_loop (env : Env) : List MetaEntry → Context → Option Context
  | [], context => some context
  | e :: li, context =>
    let key := e.name
    match e.type with
    | .META_ENTRY_TYPE_STRING =>
      match option_get_str_value context.option key with
      | some v =>
        match context_set_str env context key v with
        | Option.none => Option.none
        | some context1 => override_by_option_loop env li context1
      | Option.none => override_by_option_loop env li context
    | .META_ENTRY_TYPE_INTEGER =>
      match option_get_int_value context.option key with
      | some v =>
        match context_set_int env context key v with
        | Option.none => Option.none
        | some context1 => override_by_option_loop env li context1
      | Option.none => override_by_option_loop env li context
    | .META_ENTRY_TYPE_BOOLEAN =>
      match option_get_bool_value context.option key with
      | some v =>
        match context_set_bool env context key v with
        | Option.none => Option.none
        | some context1 => override_by_option_loop env li context1
      | Option.none => override_by_option_loop env li context
    | .META_ENTRY_TYPE_NONE => override_by_option_loop env li context

def context_override_by_option (env : Env) (context : Context) : Option Context :=
  override_by_option_loop env context.meta.list context

/-- The label `EXIT` of `context_load_config`. -/
def load_config_exit (context : Context) : Context :=
  { context with state := { context.state with loading := false } }

def context_load_config (env : Env) (context : Context) : Option Context :=
  match context.lua with
  | Option.none => some context
  | some _ =>
    if context.state.loading then some context
    else
      let context1 := { context with state := { context.state with loading := true } }
      match context_acquire_config_path env context1 with
      | Option.none => some (load_config_exit context1)
      | some config_path =>
        if !env.g_file_test_exists config_path then some (load_config_exit context1)
        else
          let run := env.luaL_dofile context1 config_path
          if run.status != LUA_OK then
            match context_on_lua_error run.context run.error with
            | Option.none => Option.none
            | some context2 => some (load_config_exit context2)
          else some (load_config_exit run.context)

/-- The 32-bit complement `~mod`. -/
def bit_not32 (m : Nat) : Nat := 4294967295 - m % 4294967296

/-- The test `(key == pair->key) && !(~mod & pair->mod)`. -/
def key_pair_hit (key mod : Nat) (pair : KeyPair) : Bool :=
  key == pair.key && ((bit_not32 mod &&& pair.mod) == 0)

/-- The call `pair->func(context)` of a built-in command. -/
def call_command (env : Env) (f : TymCommandFunc) (context : Context) : Context :=
  env.command f { context with calls := context.calls ++ [Call.command f] }

/-- The loop of `context_perform_default` over a key table; it ends at the
first row without a function. -/
def perform_default_loop (env : Env) (context : Context) (key mod : Nat) :
    List KeyPair → Bool × Context
  | [] => (false, context)
  | pair :: rest =>
    match pair.func with
    | Option.none => (false, context)
    | some f =>
      if key_pair_hit key mod pair then (true, call_command env f context)
      else perform_default_loop env context key mod rest

def context_perform_default (env : Env) (context : Context) (key mod : Nat) :
    Bool × Context :=
  perform_default_loop env context key mod DEFAULT_KEY_PAIRS

/-- The last two statements of `context_perform_keymap`. -/
def perform_keymap_default (env : Env) (context : Context) (key mod : Nat) :
    Option (Bool × Context) :=
  match context_get_bool env context "ignore_default_keymap" with
  | Option.none => Option.none
  | some true => some (false, context)
  | some false => some (context_perform_default env context key mod)

def context_perform_keymap (env : Env) (context : Context) (key mod : Nat) :
    Option (Bool × Context) :=
  match context.lua with
  | some _ =>
    let r := env.keymap_perform context key mod
    if r.ret then
      if !r.result then some (true, r.context)
      else perform_keymap_default env r.context key mod
    else
      match r.error with
      | some error =>
        match context_on_lua_error r.context (some error) with
        | Option.none => Option.none
        | some context1 => some (true, context1)
      | Option.none => perform_keymap_default env r.context key mod
  | Option.none => perform_keymap_default env context key mod

def context_acquire_theme_path (env : Env) (context : Context) : Option String :=
  let path := option_get_theme_path context.option
  if is_none env path then Option.none
  else
    match path with
    | Option.none =>
      some (env.g_build_path
        [env.g_get_user_config_dir, env.TYM_CONFIG_DIR_NAME, env.TYM_THEME_FILE_NAME])
    | some p =>
      if env.g_path_is_absolute p then some p
      else some (env.g_build_path [env.g_get_current_dir, p])

/-- The loop of `context_load_theme` over the entries of the returned table.
`strncmp` on a null key aborts. -/
def load_theme_loop (env : Env) : List (LuaValue × LuaValue) → Context → Option Context
  | [], context => some context
  | (k, v) :: rest, context =>
    let key := lua_tostring k
    let value := lua_tostring v
    match value with
    | Option.none => load_theme_loop env rest context
    | some value =>
      match key with
      | Option.none => Option.none
      | some key =>
        if key.toList.take 6 != "color_".toList then load_theme_loop env rest context
        else
          match context_set_str env context key value with
          | Option.none => Option.none
          | some context1 => load_theme_loop env rest context1

def context_load_theme (env : Env) (context : Context) : Option Context :=
  match context.lua with
  | Option.none => some context
  | some _ =>
    match context_acquire_theme_path env context with
    | Option.none => some context
    | some theme_path =>
      if !env.g_file_test_exists theme_path then some context
      else if !env.luaL_loadfile context theme_path then some context
      else
        let run := env.lua_pcall context theme_path
        if run.status != LUA_OK then context_on_lua_error run.context run.error
        else
          match run.result with
          | .value _ => some run.context
          | .table entries => load_theme_loop env entries run.context

/-- The loop of `context_handle_signal` over a signal table; it ends at the
first row without a function. The test is `0 == g_strcmp0(def->name,
signal_name)`, which also compares null pointers. -/
def handle_signal_loop (env : Env) (context : Context) (signal_name : Option String) :
    List SignalDefinition → Context
  | [] => context
  | d :: rest =>
    match d.func with
    | Option.none => context
    | some f =>
      if d.name == signal_name then call_command env f context
      else handle_signal_loop env context signal_name rest

/-- The signal handler; the unused `parameters` argument is left out. -/
def context_handle_signal (env : Env) (context : Context) (signal_name : Option String) :
    Context :=
  handle_signal_loop env context signal_name SIGNALS

/-! ## A stub environment and sample aggregates

Used to evaluate the embedding on concrete inputs. -/

/-- Stub script keymap: the first binding with the event key whose mask is
contained in the event mask is taken; a binding with reference 0 is a handler
that returns false, reference 1 a handler that returns true, any other
reference a handler that throws. -/
def stub_keymap_perform (context : Context) (key mod : Nat) : KeymapPerform :=
  match context.keymap.find? (fun e => e.key == key && (e.mod &&& mod) == e.mod) with
  | Option.none =>
    { ret := false, result := false, error := Option.none, context := context }
  | some e =>
    if e.ref == 0 then
      { ret := true, result := false, error := Option.none, context := context }
    else if e.ref == 1 then
      { ret := true, result := true, error := Option.none, context := context }
    else
      { ret := false, result := false, error := some "attempt to call a nil value",
        context := context }

/-- Stub environment: getters yield fixed values, setters and commands act on
collaborators only, every script file exists and runs without error, every
non-empty string is a colour. -/
def stub_env : Env where
  str_getter := fun _ _ _ => "derived"
  int_getter := fun _ _ _ => 132
  bool_getter := fun _ _ _ => true
  str_setter := fun _ c _ _ => c
  int_setter := fun _ c _ _ => c
  bool_setter := fun _ c _ _ => c
  command := fun _ c => c
  keymap_perform := stub_keymap_perform
  luaL_dofile := fun c _ => { status := LUA_OK, error := Option.none, context := c }
  luaL_loadfile := fun _ _ => true
  lua_pcall := fun c _ =>
    { status := LUA_OK, error := Option.none, result := .table [], context := c }
  g_file_test_exists := fun _ => true
  g_path_is_absolute := fun p => p.toList.head? == some '/'
  g_build_path := fun l => "/".intercalate l
  g_get_user_config_dir := "/home/user/.config"
  g_get_current_dir := "/home/user"
  gdk_rgba_parse := fun s =>
    if s.length == 0 then Option.none
    else some { red := s.length, green := 0, blue := 0, alpha := 65535 }
  TYM_CONFIG_DIR_NAME := "tym"
  TYM_CONFIG_FILE_NAME := "config.lua"
  TYM_THEME_FILE_NAME := "theme.lua"
  TYM_SYMBOL_NONE := "NONE"

/-- The sixteen palette entries, all with the same default. -/
def stub_colors : List MetaEntry :=
  (List.range 16).map fun i =>
    { name := "color_" ++ toString i, default_value := .str "#000000",
      getter := Option.none, setter := Option.none }

/-- Sample schema: plain entries, one entry with both hooks (`title`), one
with a setter only (`scale`), one with a getter only (`width`), and the
palette. -/
def stub_schema : Meta :=
  { list :=
      [ { name := "icon", default_value := .str "utilities-terminal",
          getter := Option.none, setter := Option.none },
        { name := "ignore_default_keymap", default_value := .bool false,
          getter := Option.none, setter := Option.none },
        { name := "foo", default_value := .str "x",
          getter := Option.none, setter := Option.none },
        { name := "n", default_value := .int 3,
          getter := Option.none, setter := Option.none },
        { name := "title", default_value := .str "tym",
          getter := some 1, setter := some 2 },
        { name := "scale", default_value := .int 100,
          getter := Option.none, setter := some 3 },
        { name := "width", default_value := .int 80,
          getter := some 4, setter := Option.none } ] ++ stub_colors }

/-- Sample aggregate right after construction, with the interpreter up. -/
def stub_context : Context :=
  { meta := stub_schema
    option := { config_path := Option.none, theme_path := Option.none, nolua := false,
                values := [] }
    config := config_init stub_schema
    keymap := []
    lua := some { id := 0 }
    state := { loading := false }
    calls := [] }

/-- The sample aggregate with one script binding on Ctrl+Shift+c. -/
def stub_context_bound (ref : Nat) : Context :=
  { stub_context with
    keymap := [{ key := GDK_KEY_c, mod := GDK_CONTROL_MASK ||| GDK_SHIFT_MASK, ref := ref }] }

/-- The sample aggregate with one script binding on Ctrl+Shift+c and the
property `ignore_default_keymap` set. -/
def stub_context_ignoring (ref : Nat) : Context :=
  { stub_context_bound ref with
    config := config_set_bool stub_context.config "ignore_default_keymap" true }

/-! ## Conditions on the schema and on the hooks -/

/-- What the three mappings of the store hold for `key`. -/
def Config.slots (a : Config) (key : String) : Option String × Option Int × Option Bool :=
  (a.strs.lookup key, a.ints.lookup key, a.bools.lookup key)

/-- The aggregate `c1` differs from `c` by a write for the property `key`:
the schema and the option overrides are the same, and so is what the store
holds for every other property. -/
def Context.local_write (c c1 : Context) (key : String) : Prop :=
  c1.meta = c.meta ∧ c1.option = c.option ∧
    ∀ k1 : String, k1 ≠ key → c1.config.slots k1 = c.config.slots k1

/-- Setter hooks are local: a setter called for one property leaves the
schema, the option overrides and the store entries of every other property
alone (it may act on collaborators and on the store entry of its own
property). -/
def Env.setters_local (env : Env) : Prop :=
  (∀ (f : Nat) (c : Context) (k : String) (v : String),
    c.local_write (env.str_setter f c k v) k) ∧
  (∀ (f : Nat) (c : Context) (k : String) (v : Int),
    c.local_write (env.int_setter f c k v) k) ∧
  (∀ (f : Nat) (c : Context) (k : String) (v : Bool),
    c.local_write (env.bool_setter f c k v) k)

/-- Exactly one schema entry per name. -/
def Meta.names_unique (m : Meta) : Prop :=
  (m.list.map (fun e => e.name)).Nodup

instance (m : Meta) : Decidable m.names_unique :=
  inferInstanceAs (Decidable (List.Nodup _))

/-- One round of the first loop of `context_restore_default`. -/
def restore_default_round (env : Env) (context : Context) (e : MetaEntry) :
    Option Context :=
  if restore_default_skips e.name then some context
  else
    match e.default_value with
    | .str s => context_set_str env context e.name s
    | .int i => context_set_int env context e.name i
    | .bool b => context_set_bool env context e.name b
    | .none => some context

/-- One round of the loop of `context_override_by_option`. -/
def override_by_option_round (env : Env) (context : Context) (e : MetaEntry) :
    Option Context :=
  match e.type with
  | .META_ENTRY_TYPE_STRING =>
    match option_get_str_value context.option e.name with
    | some v => context_set_str env context e.name v
    | Option.none => some context
  | .META_ENTRY_TYPE_INTEGER =>
    match option_get_int_value context.option e.name with
    | some v => context_set_int env context e.name v
    | Option.none => some context
  | .META_ENTRY_TYPE_BOOLEAN =>
    match option_get_bool_value context.option e.name with
    | some v => context_set_bool env context e.name v
    | Option.none => some context
  | .META_ENTRY_TYPE_NONE => some context

/-- A loop over the schema list that stops at the first round that aborts. -/
def run_rounds (w : Context → MetaEntry → Option Context) :
    List MetaEntry → Context → Option Context
  | [], context => some context
  | e :: li, context =>
    match w context e with
    | Option.none => Option.none
    | some context1 => run_rounds w li context1

/-- What the store holds for an entry once the default-restore pass has
written its default: the default, in the mapping of the entry's kind. -/
def holds_default (e : MetaEntry) (sl : Option String × Option Int × Option Bool) : Prop :=
  (∀ s, e.default_value = .str s → sl.1 = some s) ∧
  (∀ i, e.default_value = .int i → sl.2.1 = some i) ∧
  (∀ b, e.default_value = .bool b → sl.2.2 = some b)

/-- The sample aggregate after a theme has set `color_1` and a command line
has supplied values for `foo` and `title`. -/
def stub_context_themed : Context :=
  { stub_context with
    option := { stub_context.option with
                values := [("foo", .str "y"), ("title", .str "custom")] }
    config := config_set_str stub_context.config "color_1" "#ff0000" }

/-- Setter hooks leave the schema that the store was built over alone. -/
def Env.setters_keep_schema (env : Env) : Prop :=
  (∀ (f : Nat) (c : Context) (k : String) (v : String),
    (env.str_setter f c k v).config.schema = c.config.schema) ∧
  (∀ (f : Nat) (c : Context) (k : String) (v : Int),
    (env.int_setter f c k v).config.schema = c.config.schema) ∧
  (∀ (f : Nat) (c : Context) (k : String) (v : Bool),
    (env.bool_setter f c k v).config.schema = c.config.schema)

/-- Path resolution in the words of the specification: the suppression
sentinel gives no path, an unset option gives the file in the application
directory under the user configuration directory, an absolute path is taken
as it is, a relative path is joined to the current directory. -/
def resolve_script_path (env : Env) (option_path : Option String) (file_name : String) :
    Option String :=
  match option_path with
  | Option.none =>
    some (env.g_build_path [env.g_get_user_config_dir, env.TYM_CONFIG_DIR_NAME, file_name])
  | some p =>
    if p = env.TYM_SYMBOL_NONE then Option.none
    else if env.g_path_is_absolute p then some p
    else some (env.g_build_path [env.g_get_current_dir, p])

/-- The theme entries that are taken, as name and text: the key reads as a
name that begins with `color_` and the value converts to text. -/
def theme_entry_taken (kv : LuaValue × LuaValue) : Option (String × String) :=
  match lua_tostring kv.1, lua_tostring kv.2 with
  | some k, some v => if k.toList.take 6 == "color_".toList then some (k, v) else Option.none
  | _, _ => Option.none

/-- String writes through `context_set_str`, one after the other. -/
def write_strs (env : Env) : List (String × String) → Context → Option Context
  | [], context => some context
  | (k, v) :: rest, context =>
    match context_set_str env context k v with
    | Option.none => Option.none
    | some context1 => write_strs env rest context1

/-- The stub environment with a theme script that returns the given table. -/
def stub_env_theme (entries : List (LuaValue × LuaValue)) : Env :=
  { stub_env with
    lua_pcall := fun c _ =>
      { status := LUA_OK, error := Option.none, result := .table entries, context := c } }

/-- The stub environment with a config script that sets `foo`. -/
def stub_env_config : Env :=
  { stub_env with
    luaL_dofile := fun c _ =>
      { status := LUA_OK, error := Option.none,
        context := { c with config := config_set_str c.config "foo" "set by config" } } }

/-- The stub environment with a config script that sets `foo` and a theme
script that asks for a reload of the config and returns an empty table. -/
def stub_env_theme_reloads : Env :=
  { stub_env_config with
    lua_pcall := fun c _ =>
      { status := LUA_OK, error := Option.none, result := .table [],
        context := (context_load_config stub_env_config c).getD c } }

/-- The stub environment with a config script that throws a message. -/
def stub_env_config_throws : Env :=
  { stub_env with
    luaL_dofile := fun c _ =>
      { status := LUA_ERRRUN, error := some "config.lua:1: boom", context := c } }

/-- The stub environment with a config script that throws a table, which
`lua_tostring` does not convert. -/
def stub_env_config_throws_table : Env :=
  { stub_env with
    luaL_dofile := fun c _ => { status := LUA_ERRRUN, error := Option.none, context := c } }

/-- The sample schema with one more entry, `color_1x`. -/
def stub_schema_odd : Meta :=
  { list := stub_schema.list ++
      [{ name := "color_1x", default_value := .str "#123456",
         getter := Option.none, setter := Option.none }] }

/-- The sample aggregate over the schema with `color_1x`, for which the store
holds a value that is not its default. -/
def stub_context_odd : Context :=
  { stub_context with
    meta := stub_schema_odd
    config := config_set_str (config_init stub_schema_odd) "color_1x" "#ffffff" }

/-! ## Auxiliary lemmas -/

theorem bit_not32_testBit (m i : Nat) :
    (bit_not32 m).testBit i = (decide (i < 32) && !m.testBit i) := by
  have h : m % 4294967296 < 2 ^ 32 := Nat.mod_lt _ (by norm_num)
  have e : bit_not32 m = 2 ^ 32 - (m % 4294967296 + 1) := by
    unfold bit_not32; omega
  rw [e, Nat.testBit_two_pow_sub_succ h]
  have : (4294967296 : Nat) = 2 ^ 32 := by norm_num
  rw [this, Nat.testBit_mod_two_pow]
  by_cases hi : i < 32 <;> simp [hi]

/-- No required bit is missing from the event mask exactly when the required
mask is contained in it. -/
theorem bit_not32_and_eq_zero_iff (m mask : Nat) (hmask : mask < 2 ^ 32) :
    (bit_not32 m &&& mask = 0) ↔ (mask &&& m = mask) := by
  constructor
  · intro h
    apply Nat.eq_of_testBit_eq
    intro i
    have hi := congrArg (fun x => x.testBit i) h
    simp only [Nat.testBit_and, bit_not32_testBit, Nat.zero_testBit] at hi
    rw [Nat.testBit_and]
    by_cases hb : mask.testBit i = true
    · by_cases hm : m.testBit i = true
      · simp [hb, hm]
      · have hlt : i < 32 := by
          by_contra hge
          have : mask < 2 ^ i :=
            lt_of_lt_of_le hmask (Nat.pow_le_pow_right (by norm_num) (by omega))
          rw [Nat.testBit_lt_two_pow this] at hb
          exact absurd hb (by simp)
        simp [hb, hm, hlt] at hi
    · simp at hb; simp [hb]
  · intro h
    apply Nat.eq_of_testBit_eq
    intro i
    have hi := congrArg (fun x => x.testBit i) h
    simp only [Nat.testBit_and] at hi
    simp only [Nat.testBit_and, bit_not32_testBit, Nat.zero_testBit]
    by_cases hb : mask.testBit i = true
    · simp [hb] at hi; simp [hb, hi]
    · simp at hb; simp [hb]

theorem key_pair_hit_iff (key mod : Nat) (pair : KeyPair) (hmask : pair.mod < 2 ^ 32) :
    key_pair_hit key mod pair = true ↔ (key = pair.key ∧ pair.mod &&& mod = pair.mod) := by
  unfold key_pair_hit
  simp only [Bool.and_eq_true, beq_iff_eq]
  rw [bit_not32_and_eq_zero_iff mod pair.mod hmask]

/-! ## Key dispatch -/

/-- C1 (as stated, refuted): on the sample aggregate whose script handler for
Ctrl+Shift+c returns true while `ignore_default_keymap` is set, the handler
matches and returns true, yet `context_perform_keymap` reports the event
unconsumed with the state untouched, which is not the result of
`context_perform_default` for the same event. -/
theorem perform_keymap_true_not_default :
    (stub_context_ignoring 1).lua = some { id := 0 } ∧
    (stub_env.keymap_perform (stub_context_ignoring 1) GDK_KEY_c 5).ret = true ∧
    (stub_env.keymap_perform (stub_context_ignoring 1) GDK_KEY_c 5).result = true ∧
    context_perform_keymap stub_env (stub_context_ignoring 1) GDK_KEY_c 5
      = some (false, stub_context_ignoring 1) ∧
    context_perform_default stub_env (stub_context_ignoring 1) GDK_KEY_c 5
      = (true, { stub_context_ignoring 1 with
                 calls := [Call.command .command_copy_clipboard] }) ∧
    context_perform_keymap stub_env (stub_context_ignoring 1) GDK_KEY_c 5
      ≠ some (context_perform_default stub_env
          (stub_env.keymap_perform (stub_context_ignoring 1) GDK_KEY_c 5).context
          GDK_KEY_c 5) := by
  decide

/-- C1 (amended): with the interpreter up, when the script handler matches
and returns true, `context_perform_keymap` goes on to the check of
`ignore_default_keymap` on the state the handler left: if it reads true the
event is unconsumed and that state is returned as is; if it reads false the
result is that of `context_perform_default` for the same key and mask. -/
theorem perform_keymap_handler_true (env : Env) (context : Context) (key mod : Nat)
    (L : lua_State) (hlua : context.lua = some L)
    (hret : (env.keymap_perform context key mod).ret = true)
    (hres : (env.keymap_perform context key mod).result = true) :
    (context_get_bool env (env.keymap_perform context key mod).context
        "ignore_default_keymap" = some true →
      context_perform_keymap env context key mod
        = some (false, (env.keymap_perform context key mod).context)) ∧
    (context_get_bool env (env.keymap_perform context key mod).context
        "ignore_default_keymap" = some false →
      context_perform_keymap env context key mod
        = some (context_perform_default env
            (env.keymap_perform context key mod).context key mod)) := by
  constructor <;> intro h <;>
    simp [context_perform_keymap, hlua, hret, hres, perform_keymap_default, h]

theorem perform_keymap_handler_true_witness :
    (stub_context_bound 1).lua = some { id := 0 } ∧
    (stub_env.keymap_perform (stub_context_bound 1) GDK_KEY_c 5).ret = true ∧
    (stub_env.keymap_perform (stub_context_bound 1) GDK_KEY_c 5).result = true ∧
    context_get_bool stub_env (stub_env.keymap_perform (stub_context_bound 1) GDK_KEY_c 5).context
      "ignore_default_keymap" = some false ∧
    context_perform_keymap stub_env (stub_context_bound 1) GDK_KEY_c 5
      = some (context_perform_default stub_env
          (stub_env.keymap_perform (stub_context_bound 1) GDK_KEY_c 5).context GDK_KEY_c 5) :=
  ⟨rfl, by decide, by decide, by decide,
    (perform_keymap_handler_true stub_env (stub_context_bound 1) GDK_KEY_c 5 { id := 0 }
      rfl (by decide) (by decide)).2 (by decide)⟩

/-- C2: with the interpreter up, when the script handler matches and returns
false, `context_perform_keymap` returns true and hands back the state the
handler left: `ignore_default_keymap` is not read and no built-in command is
called, whatever the key and the mask. -/
theorem perform_keymap_handler_false (env : Env) (context : Context) (key mod : Nat)
    (L : lua_State) (hlua : context.lua = some L)
    (hret : (env.keymap_perform context key mod).ret = true)
    (hres : (env.keymap_perform context key mod).result = false) :
    context_perform_keymap env context key mod
      = some (true, (env.keymap_perform context key mod).context) := by
  simp [context_perform_keymap, hlua, hret, hres]

/-- The handler on Ctrl+Shift+c returns false and the event carries
Ctrl, Shift and NumLock: the event is consumed and the copy command is not
called (the call record stays empty). -/
theorem perform_keymap_handler_false_witness :
    (stub_context_bound 0).lua = some { id := 0 } ∧
    (stub_env.keymap_perform (stub_context_bound 0) GDK_KEY_c
        (GDK_CONTROL_MASK ||| GDK_SHIFT_MASK ||| GDK_MOD2_MASK)).ret = true ∧
    (stub_env.keymap_perform (stub_context_bound 0) GDK_KEY_c
        (GDK_CONTROL_MASK ||| GDK_SHIFT_MASK ||| GDK_MOD2_MASK)).result = false ∧
    context_perform_keymap stub_env (stub_context_bound 0) GDK_KEY_c
        (GDK_CONTROL_MASK ||| GDK_SHIFT_MASK ||| GDK_MOD2_MASK)
      = some (true, stub_context_bound 0) ∧
    (stub_context_bound 0).calls = [] :=
  ⟨rfl, by decide, by decide,
    perform_keymap_handler_false stub_env (stub_context_bound 0) GDK_KEY_c
      (GDK_CONTROL_MASK ||| GDK_SHIFT_MASK ||| GDK_MOD2_MASK) { id := 0 }
      rfl (by decide) (by decide),
    rfl⟩

/-- C3: with the interpreter up, when the script keymap reports an error,
`context_perform_keymap` sends exactly one notification with the title
`tym: lua error` and the error text as body (the icon is the one the store
holds), returns true and calls no built-in command: the state handed back is
the one the keymap left plus that notification. -/
theorem perform_keymap_handler_error (env : Env) (context : Context) (key mod : Nat)
    (L : lua_State) (error icon : String) (hlua : context.lua = some L)
    (hret : (env.keymap_perform context key mod).ret = false)
    (herr : (env.keymap_perform context key mod).error = some error)
    (hicon : config_get_str (env.keymap_perform context key mod).context.config "icon"
      = some icon) :
    context_perform_keymap env context key mod
      = some (true,
          { (env.keymap_perform context key mod).context with
            calls := (env.keymap_perform context key mod).context.calls ++
              [Call.notification "tym: lua error" error icon] }) := by
  simp [context_perform_keymap, hlua, hret, herr, context_on_lua_error, context_notify,
    notification_call, hicon]

theorem perform_keymap_handler_error_witness :
    (stub_context_bound 2).lua = some { id := 0 } ∧
    (stub_env.keymap_perform (stub_context_bound 2) GDK_KEY_c 5).ret = false ∧
    (stub_env.keymap_perform (stub_context_bound 2) GDK_KEY_c 5).error
      = some "attempt to call a nil value" ∧
    config_get_str (stub_env.keymap_perform (stub_context_bound 2) GDK_KEY_c 5).context.config
      "icon" = some "utilities-terminal" ∧
    context_perform_keymap stub_env (stub_context_bound 2) GDK_KEY_c 5
      = some (true,
          { (stub_env.keymap_perform (stub_context_bound 2) GDK_KEY_c 5).context with
            calls := (stub_env.keymap_perform (stub_context_bound 2) GDK_KEY_c 5).context.calls ++
              [Call.notification "tym: lua error" "attempt to call a nil value"
                "utilities-terminal"] }) :=
  ⟨rfl, by decide, by decide, by decide,
    perform_keymap_handler_error stub_env (stub_context_bound 2) GDK_KEY_c 5 { id := 0 }
      "attempt to call a nil value" "utilities-terminal" rfl (by decide) (by decide)
      (by decide)⟩

/-- C4: a row `(key, mask)` of a key table (masks are 32-bit) matches the
event `(k, m)` iff `k = key` and `mask & m = mask`; `context_perform_default`
returns true iff some binding of the default table matches, and then the
command of a matching binding has been called on the incoming state; when it
returns false the state is handed back untouched (no command is called). -/
theorem perform_default_mask_subset (env : Env) (context : Context) (key mod : Nat) :
    (∀ pair : KeyPair, pair.mod < 2 ^ 32 →
      (key_pair_hit key mod pair = true ↔ (key = pair.key ∧ pair.mod &&& mod = pair.mod))) ∧
    ((context_perform_default env context key mod).1 = true ↔
      ∃ pair ∈ DEFAULT_KEY_PAIRS, pair.func.isSome = true ∧
        key = pair.key ∧ pair.mod &&& mod = pair.mod) ∧
    ((context_perform_default env context key mod).1 = true →
      ∃ pair ∈ DEFAULT_KEY_PAIRS, ∃ f, pair.func = some f ∧
        key = pair.key ∧ pair.mod &&& mod = pair.mod ∧
        (context_perform_default env context key mod).2 = call_command env f context) ∧
    ((context_perform_default env context key mod).1 = false →
      (context_perform_default env context key mod).2 = context) := by
  refine ⟨fun pair h => key_pair_hit_iff key mod pair h, ?_, ?_, ?_⟩
  · have h1 := key_pair_hit_iff key mod
      { key := GDK_KEY_c, mod := GDK_CONTROL_MASK ||| GDK_SHIFT_MASK,
        func := some .command_copy_clipboard } (by decide)
    have h2 := key_pair_hit_iff key mod
      { key := GDK_KEY_v, mod := GDK_CONTROL_MASK ||| GDK_SHIFT_MASK,
        func := some .command_paste_clipboard } (by decide)
    have h3 := key_pair_hit_iff key mod
      { key := GDK_KEY_r, mod := GDK_CONTROL_MASK ||| GDK_SHIFT_MASK,
        func := some .command_reload } (by decide)
    simp only [context_perform_default, DEFAULT_KEY_PAIRS, perform_default_loop]
    split_ifs with c1 c2 c3
    · simp [h1.mp c1]
    · simp [h2.mp c2]
    · simp [h3.mp c3]
    · have n1 := fun h => c1 (h1.mpr h)
      have n2 := fun h => c2 (h2.mpr h)
      have n3 := fun h => c3 (h3.mpr h)
      simp only [Bool.false_eq_true, false_iff, not_exists, not_and]
      intro pair hp hf hk hm
      simp only [List.mem_cons, List.mem_singleton, List.not_mem_nil, or_false] at hp
      rcases hp with rfl | rfl | rfl | rfl
      · exact n1 ⟨hk, hm⟩
      · exact n2 ⟨hk, hm⟩
      · exact n3 ⟨hk, hm⟩
      · simp at hf
  · have h1 := key_pair_hit_iff key mod
      { key := GDK_KEY_c, mod := GDK_CONTROL_MASK ||| GDK_SHIFT_MASK,
        func := some .command_copy_clipboard } (by decide)
    have h2 := key_pair_hit_iff key mod
      { key := GDK_KEY_v, mod := GDK_CONTROL_MASK ||| GDK_SHIFT_MASK,
        func := some .command_paste_clipboard } (by decide)
    have h3 := key_pair_hit_iff key mod
      { key := GDK_KEY_r, mod := GDK_CONTROL_MASK ||| GDK_SHIFT_MASK,
        func := some .command_reload } (by decide)
    simp only [context_perform_default, DEFAULT_KEY_PAIRS, perform_default_loop]
    split_ifs with c1 c2 c3
    · intro _
      exact ⟨_, List.mem_cons_self _ _, _, rfl, (h1.mp c1).1, (h1.mp c1).2, rfl⟩
    · intro _
      exact ⟨_, List.mem_cons_of_mem _ (List.mem_cons_self _ _), _, rfl,
        (h2.mp c2).1, (h2.mp c2).2, rfl⟩
    · intro _
      exact ⟨_, List.mem_cons_of_mem _ (List.mem_cons_of_mem _ (List.mem_cons_self _ _)),
        _, rfl, (h3.mp c3).1, (h3.mp c3).2, rfl⟩
    · intro h; simp at h
  · simp only [context_perform_default, DEFAULT_KEY_PAIRS, perform_default_loop]
    split_ifs <;> simp

theorem perform_default_mask_subset_witness :
    ((5 : Nat) < 2 ^ 32 ∧
      (key_pair_hit GDK_KEY_r 21 { key := GDK_KEY_r, mod := 5, func := some .command_reload }
          = true ↔
        (GDK_KEY_r = GDK_KEY_r ∧ 5 &&& 21 = 5))) ∧
    (context_perform_default stub_env stub_context GDK_KEY_r 21).1 = true ∧
    (context_perform_default stub_env stub_context GDK_KEY_r 4).1 = false ∧
    (context_perform_default stub_env stub_context GDK_KEY_r 4).2 = stub_context :=
  ⟨⟨by decide,
      (perform_default_mask_subset stub_env stub_context GDK_KEY_r 21).1
        { key := GDK_KEY_r, mod := 5, func := some .command_reload } (by decide)⟩,
    by decide, by decide,
    (perform_default_mask_subset stub_env stub_context GDK_KEY_r 4).2.2.2 (by decide)⟩

/-- C5: when no script handler matches the event (the interpreter is absent,
or the script keymap reports neither a handled event nor an error),
`context_perform_keymap` reads `ignore_default_keymap` on the current state
`context1`: if it reads true the result is false and the state is handed back
untouched (no command is called); if it reads false the result is that of
`context_perform_default` for the same key and mask. -/
theorem perform_keymap_no_handler (env : Env) (context context1 : Context) (key mod : Nat)
    (hno : (context.lua = Option.none ∧ context1 = context) ∨
      (context.lua.isSome = true ∧
        (env.keymap_perform context key mod).ret = false ∧
        (env.keymap_perform context key mod).error = Option.none ∧
        context1 = (env.keymap_perform context key mod).context)) :
    (context_get_bool env context1 "ignore_default_keymap" = some true →
      context_perform_keymap env context key mod = some (false, context1)) ∧
    (context_get_bool env context1 "ignore_default_keymap" = some false →
      context_perform_keymap env context key mod
        = some (context_perform_default env context1 key mod)) := by
  rcases hno with ⟨hlua, rfl⟩ | ⟨hlua, hret, herr, rfl⟩
  · constructor <;> intro h <;>
      simp [context_perform_keymap, hlua, perform_keymap_default, h]
  · obtain ⟨L, hL⟩ := Option.isSome_iff_exists.mp hlua
    constructor <;> intro h <;>
      simp [context_perform_keymap, hL, hret, herr, perform_keymap_default, h]

theorem perform_keymap_no_handler_witness :
    ((stub_context.lua = Option.none ∧ stub_context = stub_context) ∨
      (stub_context.lua.isSome = true ∧
        (stub_env.keymap_perform stub_context GDK_KEY_r 5).ret = false ∧
        (stub_env.keymap_perform stub_context GDK_KEY_r 5).error = Option.none ∧
        stub_context = (stub_env.keymap_perform stub_context GDK_KEY_r 5).context)) ∧
    context_get_bool stub_env stub_context "ignore_default_keymap" = some false ∧
    context_perform_keymap stub_env stub_context GDK_KEY_r 5
      = some (true, { stub_context with calls := [Call.command .command_reload] }) :=
  ⟨Or.inr (by decide), by decide,
    ((perform_keymap_no_handler stub_env stub_context stub_context GDK_KEY_r 5
      (Or.inr (by decide))).2 (by decide)).trans (by decide)⟩

/-! ## Property dispatcher -/

theorem lookup_assoc_set_self {β : Type} (key : String) (value : β)
    (l : List (String × β)) : (assoc_set key value l).lookup key = some value := by
  simp [assoc_set, List.lookup]

/-- C6 (as stated, refuted): `scale` has a setter and no getter; writing 150
calls the setter hook, the store is not written, and the read that follows
still yields 100. -/
theorem set_get_setter_only_stale :
    meta_get_entry stub_context.meta "scale"
      = some { name := "scale", default_value := .int 100,
               getter := Option.none, setter := some 3 } ∧
    context_set_int stub_env stub_context "scale" 150 = some stub_context ∧
    context_get_int stub_env stub_context "scale" = some 100 ∧
    context_get_int stub_env stub_context "scale" ≠ some 150 := by
  decide

/-- C6 (amended): for a property whose schema entry has neither a getter nor
a setter, and every value `v` of each kind, `context_set_T(name, v)` succeeds
and the `context_get_T(name)` that follows returns `v`. -/
theorem set_get_round_trip (env : Env) (context : Context) (key : String) (e : MetaEntry)
    (hentry : meta_get_entry context.meta key = some e)
    (hg : e.getter = Option.none) (hs : e.setter = Option.none) :
    (∀ v : String, ∃ c, context_set_str env context key v = some c ∧
      context_get_str env c key = some v) ∧
    (∀ v : Int, ∃ c, context_set_int env context key v = some c ∧
      context_get_int env c key = some v) ∧
    (∀ v : Bool, ∃ c, context_set_bool env context key v = some c ∧
      context_get_bool env c key = some v) := by
  refine ⟨fun v => ?_, fun v => ?_, fun v => ?_⟩
  · refine ⟨{ context with config := config_set_str context.config key v }, ?_, ?_⟩
    · simp [context_set_str, hentry, hg, hs]
    · simp [context_get_str, hentry, hg, config_get_str, config_set_str,
        lookup_assoc_set_self]
  · refine ⟨{ context with config := config_set_int context.config key v }, ?_, ?_⟩
    · simp [context_set_int, hentry, hg, hs]
    · simp [context_get_int, hentry, hg, config_get_int, config_set_int,
        lookup_assoc_set_self]
  · refine ⟨{ context with config := config_set_bool context.config key v }, ?_, ?_⟩
    · simp [context_set_bool, hentry, hg, hs]
    · simp [context_get_bool, hentry, hg, config_get_bool, config_set_bool,
        lookup_assoc_set_self]

theorem set_get_round_trip_witness :
    meta_get_entry stub_context.meta "foo"
      = some { name := "foo", default_value := .str "x",
               getter := Option.none, setter := Option.none } ∧
    (∃ c, context_set_str stub_env stub_context "foo" "y" = some c ∧
      context_get_str stub_env c "foo" = some "y") :=
  ⟨by decide,
    (set_get_round_trip stub_env stub_context "foo"
      { name := "foo", default_value := .str "x",
        getter := Option.none, setter := Option.none }
      (by decide) rfl rfl).1 "y"⟩

/-- C7: for a property whose schema entry has a getter and no setter, and
every value `v` of each kind, `context_set_T(name, v)` hands back the very
state it was given: no hook is called and the store is not written, so each
read after the write equals the same read before it. -/
theorem set_read_only_is_dropped (env : Env) (context : Context) (key : String)
    (e : MetaEntry) (g : Nat)
    (hentry : meta_get_entry context.meta key = some e)
    (hg : e.getter = some g) (hs : e.setter = Option.none) :
    (∀ v : String, context_set_str env context key v = some context ∧
      (context_set_str env context key v).bind (fun c => context_get_str env c key)
        = context_get_str env context key) ∧
    (∀ v : Int, context_set_int env context key v = some context ∧
      (context_set_int env context key v).bind (fun c => context_get_int env c key)
        = context_get_int env context key) ∧
    (∀ v : Bool, context_set_bool env context key v = some context ∧
      (context_set_bool env context key v).bind (fun c => context_get_bool env c key)
        = context_get_bool env context key) := by
  refine ⟨fun v => ?_, fun v => ?_, fun v => ?_⟩
  · have h : context_set_str env context key v = some context := by
      simp [context_set_str, hentry, hg, hs]
    exact ⟨h, by rw [h]; rfl⟩
  · have h : context_set_int env context key v = some context := by
      simp [context_set_int, hentry, hg, hs]
    exact ⟨h, by rw [h]; rfl⟩
  · have h : context_set_bool env context key v = some context := by
      simp [context_set_bool, hentry, hg, hs]
    exact ⟨h, by rw [h]; rfl⟩

theorem set_read_only_is_dropped_witness :
    meta_get_entry stub_context.meta "width"
      = some { name := "width", default_value := .int 80,
               getter := some 4, setter := Option.none } ∧
    context_set_int stub_env stub_context "width" 132 = some stub_context ∧
    context_get_int stub_env stub_context "width" = some 132 :=
  ⟨by decide,
    ((set_read_only_is_dropped stub_env stub_context "width"
      { name := "width", default_value := .int 80,
        getter := some 4, setter := Option.none } 4
      (by decide) rfl rfl).2.1 132).1,
    by decide⟩

/-! ## Default-restore and option-override passes -/

theorem restore_default_loop_eq (env : Env) (l : List MetaEntry) (c : Context) :
    restore_default_loop env l c = run_rounds (restore_default_round env) l c := by
  induction l generalizing c with
  | nil => rfl
  | cons e li ih =>
    simp only [restore_default_loop, run_rounds, restore_default_round]
    by_cases hskip : restore_default_skips e.name = true
    · simp [hskip, ih]
    · simp only [hskip, Bool.false_eq_true, if_false]
      cases hd : e.default_value with
      | str s => simp only []; cases context_set_str env c e.name s <;> simp [ih]
      | int i => simp only []; cases context_set_int env c e.name i <;> simp [ih]
      | bool b => simp only []; cases context_set_bool env c e.name b <;> simp [ih]
      | none => simp [ih]

theorem override_by_option_loop_eq (env : Env) (l : List MetaEntry) (c : Context) :
    override_by_option_loop env l c = run_rounds (override_by_option_round env) l c := by
  induction l generalizing c with
  | nil => rfl
  | cons e li ih =>
    simp only [override_by_option_loop, run_rounds, override_by_option_round]
    cases e.type with
    | META_ENTRY_TYPE_STRING =>
      simp only []
      cases option_get_str_value c.option e.name with
      | none => simp [ih]
      | some v => simp only []; cases context_set_str env c e.name v <;> simp [ih]
    | META_ENTRY_TYPE_INTEGER =>
      simp only []
      cases option_get_int_value c.option e.name with
      | none => simp [ih]
      | some v => simp only []; cases context_set_int env c e.name v <;> simp [ih]
    | META_ENTRY_TYPE_BOOLEAN =>
      simp only []
      cases option_get_bool_value c.option e.name with
      | none => simp [ih]
      | some v => simp only []; cases context_set_bool env c e.name v <;> simp [ih]
    | META_ENTRY_TYPE_NONE => simp [ih]

theorem lookup_filter_other {β : Type} (key k1 : String) (l : List (String × β))
    (h : k1 ≠ key) :
    (l.filter (fun p => !(p.1 == key))).lookup k1 = l.lookup k1 := by
  induction l with
  | nil => rfl
  | cons p rest ih =>
    obtain ⟨a, b⟩ := p
    by_cases ha : a = key
    · subst ha
      have hk : (k1 == a) = false := by simpa using h
      simp [List.filter, List.lookup, hk, ih]
    · have ha' : (a == key) = false := by simpa using ha
      simp only [List.filter, ha', Bool.not_false, List.lookup, ih]

theorem lookup_assoc_set_other {β : Type} (key k1 : String) (value : β)
    (l : List (String × β)) (h : k1 ≠ key) :
    (assoc_set key value l).lookup k1 = l.lookup k1 := by
  have hk : (k1 == key) = false := by simpa using h
  simp only [assoc_set, List.lookup, hk]
  exact lookup_filter_other key k1 l h

theorem local_write_refl (c : Context) (key : String) : c.local_write c key :=
  ⟨rfl, rfl, fun _ _ => rfl⟩

theorem context_set_str_local (env : Env) (hl : env.setters_local) (c c1 : Context)
    (k v : String) (h : context_set_str env c k v = some c1) : c.local_write c1 k := by
  unfold context_set_str at h
  cases he : meta_get_entry c.meta k with
  | none => simp [he] at h
  | some e =>
    simp only [he] at h
    cases hs : e.setter with
    | some f =>
      simp only [hs, Option.some.injEq] at h
      subst h
      exact hl.1 f c k v
    | none =>
      simp only [hs] at h
      cases hg : e.getter with
      | some g =>
        simp only [hg, Option.some.injEq] at h
        subst h
        exact local_write_refl c k
      | none =>
        simp only [hg, Option.some.injEq] at h
        subst h
        refine ⟨rfl, rfl, fun k1 hk1 => ?_⟩
        simp [Config.slots, config_set_str, lookup_assoc_set_other k k1 v _ hk1]

theorem context_set_int_local (env : Env) (hl : env.setters_local) (c c1 : Context)
    (k : String) (v : Int) (h : context_set_int env c k v = some c1) :
    c.local_write c1 k := by
  unfold context_set_int at h
  cases he : meta_get_entry c.meta k with
  | none => simp [he] at h
  | some e =>
    simp only [he] at h
    cases hs : e.setter with
    | some f =>
      simp only [hs, Option.some.injEq] at h
      subst h
      exact hl.2.1 f c k v
    | none =>
      simp only [hs] at h
      cases hg : e.getter with
      | some g =>
        simp only [hg, Option.some.injEq] at h
        subst h
        exact local_write_refl c k
      | none =>
        simp only [hg, Option.some.injEq] at h
        subst h
        refine ⟨rfl, rfl, fun k1 hk1 => ?_⟩
        simp [Config.slots, config_set_int, lookup_assoc_set_other k k1 v _ hk1]

theorem context_set_bool_local (env : Env) (hl : env.setters_local) (c c1 : Context)
    (k : String) (v : Bool) (h : context_set_bool env c k v = some c1) :
    c.local_write c1 k := by
  unfold context_set_bool at h
  cases he : meta_get_entry c.meta k with
  | none => simp [he] at h
  | some e =>
    simp only [he] at h
    cases hs : e.setter with
    | some f =>
      simp only [hs, Option.some.injEq] at h
      subst h
      exact hl.2.2 f c k v
    | none =>
      simp only [hs] at h
      cases hg : e.getter with
      | some g =>
        simp only [hg, Option.some.injEq] at h
        subst h
        exact local_write_refl c k
      | none =>
        simp only [hg, Option.some.injEq] at h
        subst h
        refine ⟨rfl, rfl, fun k1 hk1 => ?_⟩
        simp [Config.slots, config_set_bool, lookup_assoc_set_other k k1 v _ hk1]

theorem context_set_str_total (env : Env) (c : Context) (k v : String) (e : MetaEntry)
    (he : meta_get_entry c.meta k = some e) : ∃ c1, context_set_str env c k v = some c1 := by
  unfold context_set_str
  simp only [he]
  cases e.setter <;> cases e.getter <;> simp

theorem context_set_int_total (env : Env) (c : Context) (k : String) (v : Int)
    (e : MetaEntry) (he : meta_get_entry c.meta k = some e) :
    ∃ c1, context_set_int env c k v = some c1 := by
  unfold context_set_int
  simp only [he]
  cases e.setter <;> cases e.getter <;> simp

theorem context_set_bool_total (env : Env) (c : Context) (k : String) (v : Bool)
    (e : MetaEntry) (he : meta_get_entry c.meta k = some e) :
    ∃ c1, context_set_bool env c k v = some c1 := by
  unfold context_set_bool
  simp only [he]
  cases e.setter <;> cases e.getter <;> simp

theorem restore_default_round_local (env : Env) (hl : env.setters_local)
    (c c1 : Context) (e : MetaEntry) (h : restore_default_round env c e = some c1) :
    c.local_write c1 e.name := by
  unfold restore_default_round at h
  by_cases hskip : restore_default_skips e.name = true
  · simp only [hskip, if_true, Option.some.injEq] at h
    subst h; exact local_write_refl c _
  · simp only [hskip, Bool.false_eq_true, if_false] at h
    cases hd : e.default_value with
    | str s => rw [hd] at h; exact context_set_str_local env hl c c1 _ _ h
    | int i => rw [hd] at h; exact context_set_int_local env hl c c1 _ _ h
    | bool b => rw [hd] at h; exact context_set_bool_local env hl c c1 _ _ h
    | none =>
      rw [hd] at h
      simp only [Option.some.injEq] at h
      subst h; exact local_write_refl c _

theorem restore_default_round_total (env : Env) (c : Context) (e e1 : MetaEntry)
    (he : meta_get_entry c.meta e.name = some e1) :
    ∃ c1, restore_default_round env c e = some c1 := by
  unfold restore_default_round
  by_cases hskip : restore_default_skips e.name = true
  · simp [hskip]
  · simp only [hskip, Bool.false_eq_true, if_false]
    cases e.default_value with
    | str s => exact context_set_str_total env c _ s e1 he
    | int i => exact context_set_int_total env c _ i e1 he
    | bool b => exact context_set_bool_total env c _ b e1 he
    | none => exact ⟨c, rfl⟩

theorem override_by_option_round_local (env : Env) (hl : env.setters_local)
    (c c1 : Context) (e : MetaEntry) (h : override_by_option_round env c e = some c1) :
    c.local_write c1 e.name := by
  unfold override_by_option_round at h
  cases ht : e.type with
  | META_ENTRY_TYPE_STRING =>
    rw [ht] at h
    simp only [] at h
    cases ho : option_get_str_value c.option e.name with
    | none =>
      rw [ho] at h; simp only [Option.some.injEq] at h
      subst h; exact local_write_refl c _
    | some v => rw [ho] at h; exact context_set_str_local env hl c c1 _ _ h
  | META_ENTRY_TYPE_INTEGER =>
    rw [ht] at h
    simp only [] at h
    cases ho : option_get_int_value c.option e.name with
    | none =>
      rw [ho] at h; simp only [Option.some.injEq] at h
      subst h; exact local_write_refl c _
    | some v => rw [ho] at h; exact context_set_int_local env hl c c1 _ _ h
  | META_ENTRY_TYPE_BOOLEAN =>
    rw [ht] at h
    simp only [] at h
    cases ho : option_get_bool_value c.option e.name with
    | none =>
      rw [ho] at h; simp only [Option.some.injEq] at h
      subst h; exact local_write_refl c _
    | some v => rw [ho] at h; exact context_set_bool_local env hl c c1 _ _ h
  | META_ENTRY_TYPE_NONE =>
    rw [ht] at h
    simp only [Option.some.injEq] at h
    subst h; exact local_write_refl c _

theorem override_by_option_round_total (env : Env) (c : Context) (e e1 : MetaEntry)
    (he : meta_get_entry c.meta e.name = some e1) :
    ∃ c1, override_by_option_round env c e = some c1 := by
  unfold override_by_option_round
  cases e.type with
  | META_ENTRY_TYPE_STRING =>
    simp only []
    cases option_get_str_value c.option e.name with
    | none => exact ⟨c, rfl⟩
    | some v => exact context_set_str_total env c _ v e1 he
  | META_ENTRY_TYPE_INTEGER =>
    simp only []
    cases option_get_int_value c.option e.name with
    | none => exact ⟨c, rfl⟩
    | some v => exact context_set_int_total env c _ v e1 he
  | META_ENTRY_TYPE_BOOLEAN =>
    simp only []
    cases option_get_bool_value c.option e.name with
    | none => exact ⟨c, rfl⟩
    | some v => exact context_set_bool_total env c _ v e1 he
  | META_ENTRY_TYPE_NONE => exact ⟨c, rfl⟩

theorem find_name_of_mem (l : List MetaEntry) (hu : (l.map (fun e => e.name)).Nodup)
    (e : MetaEntry) (he : e ∈ l) : l.find? (fun x => x.name == e.name) = some e := by
  induction l with
  | nil => simp at he
  | cons x rest ih =>
    rw [List.map_cons, List.nodup_cons] at hu
    rcases List.mem_cons.mp he with rfl | hin
    · simp [List.find?]
    · have hne : x.name ≠ e.name := by
        intro heq
        exact hu.1 (heq ▸ List.mem_map_of_mem (fun e => e.name) hin)
      have hb : (x.name == e.name) = false := by simpa using hne
      simp only [List.find?, hb]
      exact ih hu.2 hin

theorem meta_get_entry_of_mem (m : Meta) (hu : m.names_unique) (e : MetaEntry)
    (he : e ∈ m.list) : meta_get_entry m e.name = some e :=
  find_name_of_mem m.list hu e he

theorem run_rounds_frame (w : Context → MetaEntry → Option Context)
    (hw : ∀ c c1 e, w c e = some c1 → c.local_write c1 e.name)
    (l : List MetaEntry) (c c1 : Context) (h : run_rounds w l c = some c1) :
    c1.meta = c.meta ∧ c1.option = c.option ∧
      ∀ k : String, (∀ x ∈ l, x.name ≠ k) → c1.config.slots k = c.config.slots k := by
  induction l generalizing c with
  | nil =>
    simp only [run_rounds, Option.some.injEq] at h
    subst h
    exact ⟨rfl, rfl, fun _ _ => rfl⟩
  | cons x rest ih =>
    simp only [run_rounds] at h
    cases hx : w c x with
    | none => simp [hx] at h
    | some c2 =>
      simp only [hx] at h
      obtain ⟨hm, ho, hs⟩ := ih c2 h
      obtain ⟨hm2, ho2, hs2⟩ := hw c c2 x hx
      refine ⟨hm.trans hm2, ho.trans ho2, fun k hk => ?_⟩
      rw [hs k (fun y hy => hk y (List.mem_cons_of_mem _ hy))]
      exact hs2 k (fun heq => hk x (List.mem_cons_self _ _) heq.symm)

theorem run_rounds_total (w : Context → MetaEntry → Option Context)
    (hw : ∀ c c1 e, w c e = some c1 → c.local_write c1 e.name)
    (ht : ∀ c e e1, meta_get_entry c.meta e.name = some e1 → ∃ c1, w c e = some c1)
    (l : List MetaEntry) (c : Context)
    (hall : ∀ x ∈ l, ∃ e1, meta_get_entry c.meta x.name = some e1) :
    ∃ c1, run_rounds w l c = some c1 := by
  induction l generalizing c with
  | nil => exact ⟨c, rfl⟩
  | cons x rest ih =>
    obtain ⟨e1, he1⟩ := hall x (List.mem_cons_self _ _)
    obtain ⟨c2, hc2⟩ := ht c x e1 he1
    have hm : c2.meta = c.meta := (hw c c2 x hc2).1
    obtain ⟨c1, hc1⟩ := ih c2 (fun y hy => by
      rw [hm]; exact hall y (List.mem_cons_of_mem _ hy))
    exact ⟨c1, by simp only [run_rounds, hc2, hc1]⟩

theorem run_rounds_slot (w : Context → MetaEntry → Option Context)
    (hw : ∀ c c1 e, w c e = some c1 → c.local_write c1 e.name)
    (e : MetaEntry) (m : Meta) (o : TymOption)
    (s0 : Option String × Option Int × Option Bool)
    (P : Option String × Option Int × Option Bool → Prop)
    (hP : ∀ c c1, c.meta = m → c.option = o → c.config.slots e.name = s0 →
      w c e = some c1 → P (c1.config.slots e.name))
    (l : List MetaEntry) (c c1 : Context)
    (hnd : (l.map (fun e => e.name)).Nodup) (he : e ∈ l)
    (hm : c.meta = m) (ho : c.option = o) (hs0 : c.config.slots e.name = s0)
    (h : run_rounds w l c = some c1) : P (c1.config.slots e.name) := by
  induction l generalizing c with
  | nil => simp at he
  | cons x rest ih =>
    rw [List.map_cons, List.nodup_cons] at hnd
    simp only [run_rounds] at h
    cases hx : w c x with
    | none => simp [hx] at h
    | some c2 =>
      simp only [hx] at h
      obtain ⟨hm2, ho2, hs2⟩ := hw c c2 x hx
      rcases List.mem_cons.mp he with rfl | hin
      · have hrest : ∀ y ∈ rest, y.name ≠ e.name := by
          intro y hy heq
          exact hnd.1 (heq ▸ List.mem_map_of_mem (fun e => e.name) hy)
        rw [(run_rounds_frame w hw rest c2 c1 h).2.2 e.name hrest]
        exact hP c c2 hm ho hs0 hx
      · have hne : e.name ≠ x.name := by
          intro heq
          exact hnd.1 (heq ▸ List.mem_map_of_mem (fun e => e.name) hin)
        exact ih c2 hnd.2 hin (hm2.trans hm) (ho2.trans ho)
          ((hs2 e.name hne).trans hs0) h

theorem context_set_str_slot (env : Env) (c c1 : Context) (k v : String) (e : MetaEntry)
    (he : meta_get_entry c.meta k = some e) (hg : e.getter = Option.none)
    (hs : e.setter = Option.none) (h : context_set_str env c k v = some c1) :
    (c1.config.slots k).1 = some v := by
  simp only [context_set_str, he, hg, hs, Option.some.injEq] at h
  subst h
  simp [Config.slots, config_set_str, lookup_assoc_set_self]

theorem context_set_int_slot (env : Env) (c c1 : Context) (k : String) (v : Int)
    (e : MetaEntry) (he : meta_get_entry c.meta k = some e) (hg : e.getter = Option.none)
    (hs : e.setter = Option.none) (h : context_set_int env c k v = some c1) :
    (c1.config.slots k).2.1 = some v := by
  simp only [context_set_int, he, hg, hs, Option.some.injEq] at h
  subst h
  simp [Config.slots, config_set_int, lookup_assoc_set_self]

theorem context_set_bool_slot (env : Env) (c c1 : Context) (k : String) (v : Bool)
    (e : MetaEntry) (he : meta_get_entry c.meta k = some e) (hg : e.getter = Option.none)
    (hs : e.setter = Option.none) (h : context_set_bool env c k v = some c1) :
    (c1.config.slots k).2.2 = some v := by
  simp only [context_set_bool, he, hg, hs, Option.some.injEq] at h
  subst h
  simp [Config.slots, config_set_bool, lookup_assoc_set_self]

theorem context_get_str_of_slot (env : Env) (c : Context) (k v : String) (e : MetaEntry)
    (he : meta_get_entry c.meta k = some e) (hg : e.getter = Option.none)
    (h : (c.config.slots k).1 = some v) : context_get_str env c k = some v := by
  simp only [Config.slots] at h
  simp [context_get_str, he, hg, config_get_str, h]

theorem context_get_int_of_slot (env : Env) (c : Context) (k : String) (v : Int)
    (e : MetaEntry) (he : meta_get_entry c.meta k = some e) (hg : e.getter = Option.none)
    (h : (c.config.slots k).2.1 = some v) : context_get_int env c k = some v := by
  simp only [Config.slots] at h
  simp [context_get_int, he, hg, config_get_int, h]

theorem context_get_bool_of_slot (env : Env) (c : Context) (k : String) (v : Bool)
    (e : MetaEntry) (he : meta_get_entry c.meta k = some e) (hg : e.getter = Option.none)
    (h : (c.config.slots k).2.2 = some v) : context_get_bool env c k = some v := by
  simp only [Config.slots] at h
  simp [context_get_bool, he, hg, config_get_bool, h]

/-- The default-restore pass on a schema with unique names, local setters and
a declared palette: it does not abort, keeps the schema and the options, and
leaves the default of every hook-free entry it does not skip in the store. -/
theorem restore_default_store (env : Env) (context : Context) (e : MetaEntry)
    (hl : env.setters_local) (hu : context.meta.names_unique)
    (hpal : (restore_default_palette env context.meta 16 0).isSome = true)
    (he : e ∈ context.meta.list) (hg : e.getter = Option.none)
    (hs : e.setter = Option.none) :
    ∃ c, context_restore_default env context = some c ∧
      c.meta = context.meta ∧ c.option = context.option ∧
      (restore_default_skips e.name = false → holds_default e (c.config.slots e.name)) := by
  have hw := fun c c1 x => restore_default_round_local env hl c c1 x
  obtain ⟨c1, hc1⟩ := run_rounds_total (restore_default_round env) hw
    (fun c x e1 h => restore_default_round_total env c x e1 h) context.meta.list context
    (fun x hx => ⟨x, meta_get_entry_of_mem context.meta hu x hx⟩)
  obtain ⟨hm, ho, _⟩ := run_rounds_frame (restore_default_round env) hw _ _ _ hc1
  obtain ⟨palette, hp⟩ := Option.isSome_iff_exists.mp hpal
  refine ⟨{ c1 with calls := c1.calls ++ [Call.set_colors palette] }, ?_, hm, ho, ?_⟩
  · simp [context_restore_default, restore_default_loop_eq, hc1, hm, hp]
  · intro hskip
    show holds_default e (c1.config.slots e.name)
    refine run_rounds_slot (restore_default_round env) hw e context.meta context.option
      (context.config.slots e.name) (holds_default e) ?_ context.meta.list context c1
      hu he rfl rfl rfl hc1
    intro c c2 hcm _ _ hround
    have hent : meta_get_entry c.meta e.name = some e := by
      rw [hcm]; exact meta_get_entry_of_mem context.meta hu e he
    simp only [restore_default_round, hskip, Bool.false_eq_true, if_false] at hround
    refine ⟨fun s hd => ?_, fun i hd => ?_, fun b hd => ?_⟩
    · rw [hd] at hround
      exact context_set_str_slot env c c2 _ s e hent hg hs hround
    · rw [hd] at hround
      exact context_set_int_slot env c c2 _ i e hent hg hs hround
    · rw [hd] at hround
      exact context_set_bool_slot env c c2 _ b e hent hg hs hround

theorem stub_env_setters_local : stub_env.setters_local :=
  ⟨fun _ c k _ => local_write_refl c k, fun _ c k _ => local_write_refl c k,
    fun _ c k _ => local_write_refl c k⟩

/-- C8 (as stated, refuted): `title` (both hooks) and `width` (getter only)
are not palette entries, yet right after `context_restore_default` they read
as what their getters yield, not as their schema defaults `tym` and 80. -/
theorem restore_default_hooked_not_default :
    meta_get_entry stub_context.meta "title"
      = some { name := "title", default_value := .str "tym",
               getter := some 1, setter := some 2 } ∧
    meta_get_entry stub_context.meta "width"
      = some { name := "width", default_value := .int 80,
               getter := some 4, setter := Option.none } ∧
    restore_default_skips "title" = false ∧ restore_default_skips "width" = false ∧
    (context_restore_default stub_env stub_context).isSome = true ∧
    (context_restore_default stub_env stub_context).bind
      (fun c => context_get_str stub_env c "title") = some "derived" ∧
    (context_restore_default stub_env stub_context).bind
      (fun c => context_get_int stub_env c "width") = some 132 := by
  decide

/-- C8 (amended): on a schema with one entry per name that declares the
sixteen palette entries with colour defaults, and with setter hooks that are
local, `context_restore_default` completes, and for every schema entry `e`
that has neither a getter nor a setter and that the pass does not skip, the
typed read of `e.name` right after the pass equals the schema default of
`e`. -/
theorem restore_default_reads_default (env : Env) (context : Context) (e : MetaEntry)
    (hl : env.setters_local) (hu : context.meta.names_unique)
    (hpal : (restore_default_palette env context.meta 16 0).isSome = true)
    (he : e ∈ context.meta.list) (hg : e.getter = Option.none)
    (hs : e.setter = Option.none) (hskip : restore_default_skips e.name = false) :
    ∃ c, context_restore_default env context = some c ∧
      (∀ s, e.default_value = .str s → context_get_str env c e.name = some s) ∧
      (∀ i, e.default_value = .int i → context_get_int env c e.name = some i) ∧
      (∀ b, e.default_value = .bool b → context_get_bool env c e.name = some b) := by
  obtain ⟨c, hc, hm, _, hd⟩ := restore_default_store env context e hl hu hpal he hg hs
  have hent : meta_get_entry c.meta e.name = some e := by
    rw [hm]; exact meta_get_entry_of_mem context.meta hu e he
  obtain ⟨h1, h2, h3⟩ := hd hskip
  exact ⟨c, hc,
    fun s h => context_get_str_of_slot env c _ s e hent hg (h1 s h),
    fun i h => context_get_int_of_slot env c _ i e hent hg (h2 i h),
    fun b h => context_get_bool_of_slot env c _ b e hent hg (h3 b h)⟩

/-- Scenario S1 on the sample schema: after the pass `foo` reads "x" and `n`
reads 3. -/
theorem restore_default_reads_default_witness :
    stub_env.setters_local ∧ stub_context.meta.names_unique ∧
    (restore_default_palette stub_env stub_context.meta 16 0).isSome = true ∧
    ({ name := "foo", default_value := .str "x", getter := Option.none,
       setter := Option.none } : MetaEntry) ∈ stub_context.meta.list ∧
    restore_default_skips "foo" = false ∧
    (∃ c, context_restore_default stub_env stub_context = some c ∧
      context_get_str stub_env c "foo" = some "x") ∧
    (∃ c, context_restore_default stub_env stub_context = some c ∧
      context_get_int stub_env c "n" = some 3) :=
  ⟨stub_env_setters_local, by decide, by decide, by decide, by decide,
    (restore_default_reads_default stub_env stub_context
      { name := "foo", default_value := .str "x", getter := Option.none,
        setter := Option.none }
      stub_env_setters_local (by decide) (by decide) (by decide) rfl rfl (by decide)).imp
      (fun _ h => ⟨h.1, h.2.1 "x" rfl⟩),
    (restore_default_reads_default stub_env stub_context
      { name := "n", default_value := .int 3, getter := Option.none,
        setter := Option.none }
      stub_env_setters_local (by decide) (by decide) (by decide) rfl rfl (by decide)).imp
      (fun _ h => ⟨h.1, h.2.2.1 3 rfl⟩)⟩

/-- C9 (as stated, refuted): with a command-line value `custom` for `title`
and a value left in the store for `color_1` by a theme, after
`context_restore_default` and `context_override_by_option` the property
`title` does not read as its option value (the hooks intercept both write and
read) and `color_1`, which has no option value, does not read as its schema
default `#000000` (the restore pass skips it). -/
theorem restore_override_not_as_claimed :
    option_get_str_value stub_context_themed.option "title" = some "custom" ∧
    option_get_str_value stub_context_themed.option "color_1" = Option.none ∧
    meta_get_entry stub_context_themed.meta "color_1"
      = some { name := "color_1", default_value := .str "#000000",
               getter := Option.none, setter := Option.none } ∧
    ((context_restore_default stub_env stub_context_themed).bind
      (context_override_by_option stub_env)).isSome = true ∧
    ((context_restore_default stub_env stub_context_themed).bind
      (context_override_by_option stub_env)).bind
      (fun c => context_get_str stub_env c "title") = some "derived" ∧
    ((context_restore_default stub_env stub_context_themed).bind
      (context_override_by_option stub_env)).bind
      (fun c => context_get_str stub_env c "color_1") = some "#ff0000" := by
  decide

/-- C9 (amended): on a schema with one entry per name that declares the
sixteen palette entries with colour defaults, and with setter hooks that are
local, `context_restore_default` followed by `context_override_by_option`
completes, and for every schema entry `e` that has neither a getter nor a
setter: if the option source supplies a value of the kind of `e`, the typed
read of `e.name` yields that value; if it does not and the restore pass does
not skip `e`, the typed read yields the schema default of `e`. -/
theorem restore_then_override_reads (env : Env) (context : Context) (e : MetaEntry)
    (hl : env.setters_local) (hu : context.meta.names_unique)
    (hpal : (restore_default_palette env context.meta 16 0).isSome = true)
    (he : e ∈ context.meta.list) (hg : e.getter = Option.none)
    (hs : e.setter = Option.none) :
    ∃ c1 c2, context_restore_default env context = some c1 ∧
      context_override_by_option env c1 = some c2 ∧
      (∀ s v, e.default_value = .str s →
        option_get_str_value context.option e.name = some v →
        context_get_str env c2 e.name = some v) ∧
      (∀ s, e.default_value = .str s →
        option_get_str_value context.option e.name = Option.none →
        restore_default_skips e.name = false →
        context_get_str env c2 e.name = some s) ∧
      (∀ i v, e.default_value = .int i →
        option_get_int_value context.option e.name = some v →
        context_get_int env c2 e.name = some v) ∧
      (∀ i, e.default_value = .int i →
        option_get_int_value context.option e.name = Option.none →
        restore_default_skips e.name = false →
        context_get_int env c2 e.name = some i) ∧
      (∀ b v, e.default_value = .bool b →
        option_get_bool_value context.option e.name = some v →
        context_get_bool env c2 e.name = some v) ∧
      (∀ b, e.default_value = .bool b →
        option_get_bool_value context.option e.name = Option.none →
        restore_default_skips e.name = false →
        context_get_bool env c2 e.name = some b) := by
  obtain ⟨c1, hc1, hm1, ho1, hd1⟩ :=
    restore_default_store env context e hl hu hpal he hg hs
  have hw := fun c c' x => override_by_option_round_local env hl c c' x
  have hu1 : c1.meta.names_unique := by rw [hm1]; exact hu
  have he1 : e ∈ c1.meta.list := by rw [hm1]; exact he
  obtain ⟨c2, hc2⟩ := run_rounds_total (override_by_option_round env) hw
    (fun c x e1 h => override_by_option_round_total env c x e1 h) c1.meta.list c1
    (fun x hx => ⟨x, meta_get_entry_of_mem c1.meta hu1 x hx⟩)
  obtain ⟨hm2, _, _⟩ := run_rounds_frame (override_by_option_round env) hw _ _ _ hc2
  have hent : meta_get_entry c2.meta e.name = some e := by
    rw [hm2]; exact meta_get_entry_of_mem c1.meta hu1 e he1
  have hslot := run_rounds_slot (override_by_option_round env) hw e c1.meta c1.option
    (c1.config.slots e.name)
    (fun sl =>
      (∀ v, e.type = .META_ENTRY_TYPE_STRING →
        option_get_str_value c1.option e.name = some v → sl.1 = some v) ∧
      (∀ v, e.type = .META_ENTRY_TYPE_INTEGER →
        option_get_int_value c1.option e.name = some v → sl.2.1 = some v) ∧
      (∀ v, e.type = .META_ENTRY_TYPE_BOOLEAN →
        option_get_bool_value c1.option e.name = some v → sl.2.2 = some v) ∧
      ((e.type = .META_ENTRY_TYPE_STRING →
          option_get_str_value c1.option e.name = Option.none) →
        (e.type = .META_ENTRY_TYPE_INTEGER →
          option_get_int_value c1.option e.name = Option.none) →
        (e.type = .META_ENTRY_TYPE_BOOLEAN →
          option_get_bool_value c1.option e.name = Option.none) →
        sl = c1.config.slots e.name))
    (by
      intro c c' hcm hco hcs hround
      have hce : meta_get_entry c.meta e.name = some e := by
        rw [hcm]; exact meta_get_entry_of_mem c1.meta hu1 e he1
      unfold override_by_option_round at hround
      rw [hco] at hround
      cases ht : e.type with
      | META_ENTRY_TYPE_STRING =>
        rw [ht] at hround
        simp only [] at hround
        cases hov : option_get_str_value c1.option e.name with
        | none =>
          rw [hov] at hround
          simp only [Option.some.injEq] at hround
          subst hround
          simp [hcs]
        | some v =>
          rw [hov] at hround
          have := context_set_str_slot env c c' _ v e hce hg hs hround
          simp [this]
      | META_ENTRY_TYPE_INTEGER =>
        rw [ht] at hround
        simp only [] at hround
        cases hov : option_get_int_value c1.option e.name with
        | none =>
          rw [hov] at hround
          simp only [Option.some.injEq] at hround
          subst hround
          simp [hcs]
        | some v =>
          rw [hov] at hround
          have := context_set_int_slot env c c' _ v e hce hg hs hround
          simp [this]
      | META_ENTRY_TYPE_BOOLEAN =>
        rw [ht] at hround
        simp only [] at hround
        cases hov : option_get_bool_value c1.option e.name with
        | none =>
          rw [hov] at hround
          simp only [Option.some.injEq] at hround
          subst hround
          simp [hcs]
        | some v =>
          rw [hov] at hround
          have := context_set_bool_slot env c c' _ v e hce hg hs hround
          simp [this]
      | META_ENTRY_TYPE_NONE =>
        rw [ht] at hround
        simp only [Option.some.injEq] at hround
        subst hround
        simp [hcs])
    c1.meta.list c1 c2 hu1 he1 rfl rfl rfl hc2
  rw [ho1] at hslot
  obtain ⟨hS, hI, hB, hkeep⟩ := hslot
  refine ⟨c1, c2, hc1, by simp [context_override_by_option, override_by_option_loop_eq, hc2],
    ?_, ?_, ?_, ?_, ?_, ?_⟩
  · intro s v hd hov
    exact context_get_str_of_slot env c2 _ v e hent hg
      (hS v (by simp [MetaEntry.type, hd]) hov)
  · intro s hd hov hskip
    have hk := hkeep (fun _ => hov) (by simp [MetaEntry.type, hd]) (by simp [MetaEntry.type, hd])
    exact context_get_str_of_slot env c2 _ s e hent hg (by rw [hk]; exact (hd1 hskip).1 s hd)
  · intro i v hd hov
    exact context_get_int_of_slot env c2 _ v e hent hg
      (hI v (by simp [MetaEntry.type, hd]) hov)
  · intro i hd hov hskip
    have hk := hkeep (by simp [MetaEntry.type, hd]) (fun _ => hov) (by simp [MetaEntry.type, hd])
    exact context_get_int_of_slot env c2 _ i e hent hg (by rw [hk]; exact (hd1 hskip).2.1 i hd)
  · intro b v hd hov
    exact context_get_bool_of_slot env c2 _ v e hent hg
      (hB v (by simp [MetaEntry.type, hd]) hov)
  · intro b hd hov hskip
    have hk := hkeep (by simp [MetaEntry.type, hd]) (by simp [MetaEntry.type, hd]) (fun _ => hov)
    exact context_get_bool_of_slot env c2 _ b e hent hg (by rw [hk]; exact (hd1 hskip).2.2 b hd)

/-- Scenario S2 on the sample schema: `foo` has the default "x" and the
option value "y"; after both passes it reads "y". -/
theorem restore_then_override_reads_witness :
    stub_env.setters_local ∧ stub_context_themed.meta.names_unique ∧
    (restore_default_palette stub_env stub_context_themed.meta 16 0).isSome = true ∧
    ({ name := "foo", default_value := .str "x", getter := Option.none,
       setter := Option.none } : MetaEntry) ∈ stub_context_themed.meta.list ∧
    option_get_str_value stub_context_themed.option "foo" = some "y" ∧
    (∃ c1 c2, context_restore_default stub_env stub_context_themed = some c1 ∧
      context_override_by_option stub_env c1 = some c2 ∧
      context_get_str stub_env c2 "foo" = some "y") :=
  ⟨stub_env_setters_local, by decide, by decide, by decide, by decide,
    (restore_then_override_reads stub_env stub_context_themed
      { name := "foo", default_value := .str "x", getter := Option.none,
        setter := Option.none }
      stub_env_setters_local (by decide) (by decide) (by decide) rfl rfl).imp
      (fun _ h => h.imp (fun _ h2 => ⟨h2.1, h2.2.1, h2.2.2.1 "x" "y" rfl (by decide)⟩))⟩

/-! ## Script loading -/

/-- C10: entered with the loading flag set, `context_load_config` hands back
the very state it was given: no script is run, no notification is sent and
the flag stays set. -/
theorem load_config_reentrant_is_noop (env : Env) (context : Context)
    (hloading : context.state.loading = true) :
    context_load_config env context = some context := by
  unfold context_load_config
  cases context.lua <;> simp [hloading]

theorem load_config_reentrant_is_noop_witness :
    ({ stub_context with state := { loading := true } } : Context).state.loading = true ∧
    context_load_config stub_env { stub_context with state := { loading := true } }
      = some { stub_context with state := { loading := true } } :=
  ⟨rfl, load_config_reentrant_is_noop stub_env _ rfl⟩

/-- C11: entered with the interpreter up and the loading flag clear,
`context_load_config` sets the flag before anything else, so the config
script is run on a state `c1` whose flag is set; on each exit path the state
handed back is `load_config_exit` of something, whose flag is clear: with the
path suppressed or the file missing it is `c1` itself, after a run with
status `LUA_OK` it is the state the script left, and after a run with any
other status (given that the store yields the `icon` name) the loader still
returns, with the state the script left plus exactly one notification titled
`tym: lua error` whose body is what `lua_tostring` yields for the error
object: the error text, or a null body when the error object has no text. -/
theorem load_config_flag_paths (env : Env) (context c1 : Context) (L : lua_State)
    (hlua : context.lua = some L) (hclear : context.state.loading = false)
    (hc1 : c1 = { context with state := { context.state with loading := true } }) :
    c1.state.loading = true ∧
    (∀ c, context_load_config env context = some c → c.state.loading = false) ∧
    (context_acquire_config_path env c1 = Option.none →
      context_load_config env context = some (load_config_exit c1)) ∧
    (∀ p, context_acquire_config_path env c1 = some p →
      env.g_file_test_exists p = false →
      context_load_config env context = some (load_config_exit c1)) ∧
    (∀ p, context_acquire_config_path env c1 = some p →
      env.g_file_test_exists p = true →
      (env.luaL_dofile c1 p).status = LUA_OK →
      context_load_config env context
        = some (load_config_exit (env.luaL_dofile c1 p).context)) ∧
    (∀ p error icon, context_acquire_config_path env c1 = some p →
      env.g_file_test_exists p = true →
      (env.luaL_dofile c1 p).status ≠ LUA_OK →
      (env.luaL_dofile c1 p).error = some error →
      config_get_str (env.luaL_dofile c1 p).context.config "icon" = some icon →
      context_load_config env context
        = some (load_config_exit
            { (env.luaL_dofile c1 p).context with
              calls := (env.luaL_dofile c1 p).context.calls ++
                [Call.notification "tym: lua error" error icon] })) ∧
    (∀ p icon, context_acquire_config_path env c1 = some p →
      env.g_file_test_exists p = true →
      (env.luaL_dofile c1 p).status ≠ LUA_OK →
      (env.luaL_dofile c1 p).error = Option.none →
      config_get_str (env.luaL_dofile c1 p).context.config "icon" = some icon →
      context_load_config env context
        = some (load_config_exit
            { (env.luaL_dofile c1 p).context with
              calls := (env.luaL_dofile c1 p).context.calls ++
                [Call.notification_null_body "tym: lua error" icon] })) := by
  subst hc1
  refine ⟨rfl, ?_, ?_, ?_, ?_, ?_, ?_⟩
  · intro c hc
    simp only [context_load_config, hlua, hclear, Bool.false_eq_true, if_false] at hc
    split at hc
    · simp only [Option.some.injEq] at hc; subst hc; rfl
    · split at hc
      · simp only [Option.some.injEq] at hc; subst hc; rfl
      · split at hc
        · split at hc
          · simp at hc
          · simp only [Option.some.injEq] at hc; subst hc; rfl
        · simp only [Option.some.injEq] at hc; subst hc; rfl
  · intro hp
    simp only [hlua] at hp
    simp [context_load_config, hlua, hclear, hp]
  · intro p hp hex
    simp only [hlua] at hp
    simp [context_load_config, hlua, hclear, hp, hex]
  · intro p hp hex hst
    simp only [hlua] at hp hst
    simp [context_load_config, hlua, hclear, hp, hex, hst]
  · intro p error icon hp hex hst herr hicon
    simp only [hlua] at hp hst herr hicon
    simp [context_load_config, hlua, hclear, hp, hex, hst, herr, context_on_lua_error,
      context_notify, notification_call, hicon]
  · intro p icon hp hex hst herr hicon
    simp only [hlua] at hp hst herr hicon
    simp [context_load_config, hlua, hclear, hp, hex, hst, herr, context_on_lua_error,
      context_notify, notification_call, hicon]

/-- Scenario S6 on the stubs whose config script throws: the loader returns,
the flag is clear afterwards and the one call recorded is the notification,
with the message as body when a message is thrown and with a null body when a
table is thrown. -/
theorem load_config_flag_paths_witness :
    stub_context.lua = some { id := 0 } ∧ stub_context.state.loading = false ∧
    context_load_config stub_env_config_throws stub_context
      = some { stub_context with
               calls := [Call.notification "tym: lua error" "config.lua:1: boom"
                 "utilities-terminal"] } ∧
    context_load_config stub_env_config_throws_table stub_context
      = some { stub_context with
               calls := [Call.notification_null_body "tym: lua error"
                 "utilities-terminal"] } :=
  ⟨rfl, rfl,
    ((load_config_flag_paths stub_env_config_throws stub_context
      { stub_context with state := { stub_context.state with loading := true } }
      { id := 0 } rfl rfl rfl).2.2.2.2.2.1
      "/home/user/.config/tym/config.lua" "config.lua:1: boom" "utilities-terminal"
      (by decide) (by decide) (by decide) (by decide) (by decide)).trans (by decide),
    ((load_config_flag_paths stub_env_config_throws_table stub_context
      { stub_context with state := { stub_context.state with loading := true } }
      { id := 0 } rfl rfl rfl).2.2.2.2.2.2
      "/home/user/.config/tym/config.lua" "utilities-terminal"
      (by decide) (by decide) (by decide) (by decide) (by decide)).trans (by decide)⟩

/-- C12: `context_acquire_config_path` is the path resolution of the
specification applied to the config option and the config file name, and
`context_acquire_theme_path` is the same function applied to the theme option
and the theme file name: the sentinel gives no path, an unset option gives
the default file under the user configuration directory, an absolute path is
returned unchanged, a relative path is joined to the current directory. -/
theorem acquire_path_resolution (env : Env) (context : Context) :
    context_acquire_config_path env context
      = resolve_script_path env (option_get_config_path context.option)
          env.TYM_CONFIG_FILE_NAME ∧
    context_acquire_theme_path env context
      = resolve_script_path env (option_get_theme_path context.option)
          env.TYM_THEME_FILE_NAME ∧
    (∀ file, resolve_script_path env (some env.TYM_SYMBOL_NONE) file = Option.none) ∧
    (∀ file, resolve_script_path env Option.none file
      = some (env.g_build_path
          [env.g_get_user_config_dir, env.TYM_CONFIG_DIR_NAME, file])) ∧
    (∀ file p, p ≠ env.TYM_SYMBOL_NONE → env.g_path_is_absolute p = true →
      resolve_script_path env (some p) file = some p) ∧
    (∀ file p, p ≠ env.TYM_SYMBOL_NONE → env.g_path_is_absolute p = false →
      resolve_script_path env (some p) file
        = some (env.g_build_path [env.g_get_current_dir, p])) := by
  refine ⟨?_, ?_, ?_, ?_, ?_, ?_⟩
  · unfold context_acquire_config_path resolve_script_path is_none
    cases h : option_get_config_path context.option with
    | none => simp
    | some p => by_cases hp : p = env.TYM_SYMBOL_NONE <;> simp [hp]
  · unfold context_acquire_theme_path resolve_script_path is_none
    cases h : option_get_theme_path context.option with
    | none => simp
    | some p => by_cases hp : p = env.TYM_SYMBOL_NONE <;> simp [hp]
  · intro file; simp [resolve_script_path]
  · intro file; simp [resolve_script_path]
  · intro file p hp habs; simp [resolve_script_path, hp, habs]
  · intro file p hp habs; simp [resolve_script_path, hp, habs]

theorem acquire_path_resolution_witness :
    ("themes/dark.lua" ≠ stub_env.TYM_SYMBOL_NONE ∧
      stub_env.g_path_is_absolute "themes/dark.lua" = false) ∧
    resolve_script_path stub_env (some "themes/dark.lua") "theme.lua"
      = some "/home/user/themes/dark.lua" ∧
    context_acquire_config_path stub_env stub_context
      = some "/home/user/.config/tym/config.lua" ∧
    context_acquire_theme_path stub_env stub_context
      = some "/home/user/.config/tym/theme.lua" :=
  ⟨⟨by decide, by decide⟩,
    ((acquire_path_resolution stub_env stub_context).2.2.2.2.2 "theme.lua"
      "themes/dark.lua" (by decide) (by decide)).trans (by decide),
    (acquire_path_resolution stub_env stub_context).1.trans (by decide),
    (acquire_path_resolution stub_env stub_context).2.1.trans (by decide)⟩

/-! ## Theme loading -/

theorem load_theme_loop_eq (env : Env) (entries : List (LuaValue × LuaValue)) (c : Context)
    (hkeys : ∀ kv ∈ entries, (lua_tostring kv.2).isSome = true →
      (lua_tostring kv.1).isSome = true) :
    load_theme_loop env entries c
      = write_strs env (entries.filterMap theme_entry_taken) c := by
  induction entries generalizing c with
  | nil => rfl
  | cons kv rest ih =>
    obtain ⟨k, v⟩ := kv
    have hrest : ∀ kv ∈ rest, (lua_tostring kv.2).isSome = true →
        (lua_tostring kv.1).isSome = true :=
      fun kv h => hkeys kv (List.mem_cons_of_mem _ h)
    have hhead := hkeys (k, v) (List.mem_cons_self _ _)
    simp only [load_theme_loop, List.filterMap_cons, theme_entry_taken]
    cases hv : lua_tostring v with
    | none =>
      cases hk : lua_tostring k <;> simp [ih _ hrest]
    | some vs =>
      cases hk : lua_tostring k with
      | none => simp [hv, hk] at hhead
      | some ks =>
        by_cases hc : ks.toList.take 6 = "color_".toList
        · simp only [hc, bne_self_eq_false, Bool.false_eq_true, if_false, beq_self_eq_true,
            if_true, write_strs]
          cases context_set_str env c ks vs with
          | none => rfl
          | some c1 => exact ih c1 hrest
        · have hb : (ks.toList.take 6 != "color_".toList) = true := by simpa using hc
          have hb2 : (ks.toList.take 6 == "color_".toList) = false := by simpa using hc
          simp only [hb, if_true, hb2, Bool.false_eq_true, if_false]
          exact ih c hrest

theorem write_strs_total (env : Env) (hl : env.setters_local) (l : List (String × String))
    (c : Context) (hdecl : ∀ kv ∈ l, ∃ e, meta_get_entry c.meta kv.1 = some e) :
    ∃ c1, write_strs env l c = some c1 := by
  induction l generalizing c with
  | nil => exact ⟨c, rfl⟩
  | cons kv rest ih =>
    obtain ⟨k, v⟩ := kv
    obtain ⟨e, he⟩ := hdecl (k, v) (List.mem_cons_self _ _)
    obtain ⟨c2, hc2⟩ := context_set_str_total env c k v e he
    have hm : c2.meta = c.meta := (context_set_str_local env hl c c2 k v hc2).1
    obtain ⟨c1, hc1⟩ := ih c2 (fun kv h => by
      rw [hm]; exact hdecl kv (List.mem_cons_of_mem _ h))
    exact ⟨c1, by simp only [write_strs, hc2, hc1]⟩

/-- C13 (as stated, refuted): the theme returns `color_0 = 7`, a number and
not a string; `lua_tostring` converts it, the entry is not rejected and
`color_0` is written with the text `7`. -/
theorem load_theme_number_written :
    context_get_str stub_env stub_context "color_0" = some "#000000" ∧
    (context_load_theme (stub_env_theme [(.string "color_0", .number "7")])
      stub_context).bind (fun c => context_get_str stub_env c "color_0") = some "7" := by
  decide

/-- C13 (amended): when the theme script returns a table whose keys are
strings or numbers, `context_load_theme` performs, in the order of the table,
one string write `context_set_str(key, value)` for each entry whose key reads
as a name beginning with `color_` and whose value converts to text (a string,
or a number in its text form), and nothing for the other entries, which do
not stop the loop; with local setters and all taken names declared in the
schema the load completes. -/
theorem load_theme_writes (env : Env) (context : Context) (L : lua_State)
    (theme_path : String) (entries : List (LuaValue × LuaValue))
    (hlua : context.lua = some L)
    (hpath : context_acquire_theme_path env context = some theme_path)
    (hex : env.g_file_test_exists theme_path = true)
    (hload : env.luaL_loadfile context theme_path = true)
    (hstatus : (env.lua_pcall context theme_path).status = LUA_OK)
    (hres : (env.lua_pcall context theme_path).result = .table entries)
    (hkeys : ∀ kv ∈ entries, (lua_tostring kv.2).isSome = true →
      (lua_tostring kv.1).isSome = true) :
    context_load_theme env context
      = write_strs env (entries.filterMap theme_entry_taken)
          (env.lua_pcall context theme_path).context ∧
    (∀ k v ks vs, theme_entry_taken (k, v) = some (ks, vs) ↔
      (lua_tostring k = some ks ∧ lua_tostring v = some vs ∧
        ks.toList.take 6 = "color_".toList)) ∧
    (env.setters_local →
      (∀ kv ∈ entries.filterMap theme_entry_taken,
        ∃ e, meta_get_entry (env.lua_pcall context theme_path).context.meta kv.1 = some e) →
      ∃ c, context_load_theme env context = some c) := by
  have hmain : context_load_theme env context
      = write_strs env (entries.filterMap theme_entry_taken)
          (env.lua_pcall context theme_path).context := by
    simp only [context_load_theme, hlua, hpath, hex, hload, hstatus, hres, Bool.not_true,
      Bool.false_eq_true, if_false, bne_self_eq_false]
    exact load_theme_loop_eq env entries _ hkeys
  refine ⟨hmain, ?_, ?_⟩
  · intro k v ks vs
    simp only [theme_entry_taken]
    cases lua_tostring k <;> cases lua_tostring v <;> simp
    rename_i a b
    by_cases hc : a.toList.take 6 = "color_".toList
    · constructor
      · rintro ⟨-, rfl, rfl⟩; exact ⟨rfl, rfl, hc⟩
      · rintro ⟨rfl, rfl, h⟩; exact ⟨h, rfl, rfl⟩
    · constructor
      · rintro ⟨h, -, -⟩; exact absurd h hc
      · rintro ⟨rfl, -, h⟩; exact absurd h hc
  · intro hl hdecl
    rw [hmain]
    exact write_strs_total env hl _ _ hdecl

/-- Scenario S3 on the stub: the theme `color_0`, `color_1`, `bogus` sets the
two palette names and passes over `bogus`. -/
theorem load_theme_writes_witness :
    context_load_theme
        (stub_env_theme [(.string "color_0", .string "#000000"),
          (.string "color_1", .string "#ff0000"), (.string "bogus", .string "#00ff00")])
        stub_context
      = write_strs
          (stub_env_theme [(.string "color_0", .string "#000000"),
            (.string "color_1", .string "#ff0000"), (.string "bogus", .string "#00ff00")])
          [("color_0", "#000000"), ("color_1", "#ff0000")] stub_context ∧
    (context_load_theme
        (stub_env_theme [(.string "color_0", .string "#000000"),
          (.string "color_1", .string "#ff0000"), (.string "bogus", .string "#00ff00")])
        stub_context).bind (fun c => context_get_str stub_env c "color_1")
      = some "#ff0000" :=
  ⟨((load_theme_writes
      (stub_env_theme [(.string "color_0", .string "#000000"),
        (.string "color_1", .string "#ff0000"), (.string "bogus", .string "#00ff00")])
      stub_context { id := 0 } "/home/user/.config/tym/theme.lua"
      [(.string "color_0", .string "#000000"),
        (.string "color_1", .string "#ff0000"), (.string "bogus", .string "#00ff00")]
      rfl (by decide) (by decide) (by decide) (by decide) (by decide) (by decide)).1).trans
      (by decide),
    by decide⟩

/-! ## Default bindings and signals -/

/-- The four ways `context_perform_default` can end. -/
theorem perform_default_cases (env : Env) (context : Context) (key mod : Nat) :
    (key = GDK_KEY_c ∧ 5 &&& mod = 5 ∧
      context_perform_default env context key mod
        = (true, call_command env .command_copy_clipboard context)) ∨
    (key = GDK_KEY_v ∧ 5 &&& mod = 5 ∧
      context_perform_default env context key mod
        = (true, call_command env .command_paste_clipboard context)) ∨
    (key = GDK_KEY_r ∧ 5 &&& mod = 5 ∧
      context_perform_default env context key mod
        = (true, call_command env .command_reload context)) ∨
    ((∀ pair ∈ DEFAULT_KEY_PAIRS, pair.func.isSome = true →
        ¬ (key = pair.key ∧ pair.mod &&& mod = pair.mod)) ∧
      context_perform_default env context key mod = (false, context)) := by
  have h1 := key_pair_hit_iff key mod
    { key := GDK_KEY_c, mod := GDK_CONTROL_MASK ||| GDK_SHIFT_MASK,
      func := some .command_copy_clipboard } (by decide)
  have h2 := key_pair_hit_iff key mod
    { key := GDK_KEY_v, mod := GDK_CONTROL_MASK ||| GDK_SHIFT_MASK,
      func := some .command_paste_clipboard } (by decide)
  have h3 := key_pair_hit_iff key mod
    { key := GDK_KEY_r, mod := GDK_CONTROL_MASK ||| GDK_SHIFT_MASK,
      func := some .command_reload } (by decide)
  have e5 : GDK_CONTROL_MASK ||| GDK_SHIFT_MASK = 5 := by decide
  simp only [e5] at h1 h2 h3
  simp only [context_perform_default, DEFAULT_KEY_PAIRS, perform_default_loop, e5]
  split_ifs with c1 c2 c3
  · exact Or.inl ⟨(h1.mp c1).1, (h1.mp c1).2, rfl⟩
  · exact Or.inr (Or.inl ⟨(h2.mp c2).1, (h2.mp c2).2, rfl⟩)
  · exact Or.inr (Or.inr (Or.inl ⟨(h3.mp c3).1, (h3.mp c3).2, rfl⟩))
  · refine Or.inr (Or.inr (Or.inr ⟨?_, rfl⟩))
    intro pair hp hf hm
    simp only [List.mem_cons, List.mem_singleton, List.not_mem_nil, or_false] at hp
    rcases hp with rfl | rfl | rfl | rfl
    · exact c1 (h1.mpr hm)
    · exact c2 (h2.mpr hm)
    · exact c3 (h3.mpr hm)
    · simp at hf

/-- A mask contains Control and Shift exactly when it contains both bits at
once. -/
theorem control_shift_iff (mod : Nat) :
    (GDK_CONTROL_MASK &&& mod = GDK_CONTROL_MASK ∧ GDK_SHIFT_MASK &&& mod = GDK_SHIFT_MASK) ↔
      5 &&& mod = 5 := by
  have hc : GDK_CONTROL_MASK = 4 := rfl
  have hs : GDK_SHIFT_MASK = 1 := rfl
  rw [hc, hs]
  constructor
  · rintro ⟨h4, h1⟩
    apply Nat.eq_of_testBit_eq
    intro i
    have a4 := congrArg (fun x => x.testBit i) h4
    have a1 := congrArg (fun x => x.testBit i) h1
    simp only [Nat.testBit_and] at a4 a1 ⊢
    have e : Nat.testBit 5 i = (Nat.testBit 4 i || Nat.testBit 1 i) := by
      rw [← Nat.testBit_or]; rfl
    rw [e]
    cases h4i : Nat.testBit 4 i <;> cases h1i : Nat.testBit 1 i <;>
      simp [h4i, h1i] at a4 a1 ⊢ <;> simp [a4, a1]
  · intro h5
    constructor
    · have : 4 &&& mod = (4 &&& 5) &&& mod := rfl
      rw [this, Nat.and_assoc, h5]; rfl
    · have : 1 &&& mod = (1 &&& 5) &&& mod := rfl
      rw [this, Nat.and_assoc, h5]; rfl

/-- C14: with no matching script handler and `ignore_default_keymap` reading
false, for every mask that contains Control and Shift the reload key makes
`context_perform_keymap` call the reload command once on the current state
and return true, and likewise the copy and paste keys call copy-clipboard and
paste-clipboard; for a key outside the three bound keys, or a mask that lacks
Control or Shift, it returns false and hands back the state untouched (no
command is called). -/
theorem perform_keymap_default_bindings (env : Env) (context context1 : Context)
    (key mod : Nat)
    (hno : (context.lua = Option.none ∧ context1 = context) ∨
      (context.lua.isSome = true ∧
        (env.keymap_perform context key mod).ret = false ∧
        (env.keymap_perform context key mod).error = Option.none ∧
        context1 = (env.keymap_perform context key mod).context))
    (hig : context_get_bool env context1 "ignore_default_keymap" = some false) :
    (GDK_CONTROL_MASK &&& mod = GDK_CONTROL_MASK → GDK_SHIFT_MASK &&& mod = GDK_SHIFT_MASK →
      (key = GDK_KEY_r → context_perform_keymap env context key mod
        = some (true, env.command .command_reload
            { context1 with calls := context1.calls ++ [Call.command .command_reload] })) ∧
      (key = GDK_KEY_c → context_perform_keymap env context key mod
        = some (true, env.command .command_copy_clipboard
            { context1 with
              calls := context1.calls ++ [Call.command .command_copy_clipboard] })) ∧
      (key = GDK_KEY_v → context_perform_keymap env context key mod
        = some (true, env.command .command_paste_clipboard
            { context1 with
              calls := context1.calls ++ [Call.command .command_paste_clipboard] }))) ∧
    (((key ≠ GDK_KEY_c ∧ key ≠ GDK_KEY_v ∧ key ≠ GDK_KEY_r) ∨
        ¬ (GDK_CONTROL_MASK &&& mod = GDK_CONTROL_MASK ∧
          GDK_SHIFT_MASK &&& mod = GDK_SHIFT_MASK)) →
      context_perform_keymap env context key mod = some (false, context1)) := by
  have hfall : context_perform_keymap env context key mod
      = some (context_perform_default env context1 key mod) := by
    rcases hno with ⟨hlua, rfl⟩ | ⟨hlua, hret, herr, rfl⟩
    · simp [context_perform_keymap, hlua, perform_keymap_default, hig]
    · obtain ⟨L, hL⟩ := Option.isSome_iff_exists.mp hlua
      simp [context_perform_keymap, hL, hret, herr, perform_keymap_default, hig]
  have hcases := perform_default_cases env context1 key mod
  have kcv : GDK_KEY_c ≠ GDK_KEY_v := by decide
  have kcr : GDK_KEY_c ≠ GDK_KEY_r := by decide
  have kvr : GDK_KEY_v ≠ GDK_KEY_r := by decide
  refine ⟨fun h4 h1 => ?_, fun hout => ?_⟩
  · have h5 := (control_shift_iff mod).mp ⟨h4, h1⟩
    refine ⟨fun hk => ?_, fun hk => ?_, fun hk => ?_⟩
    · rcases hcases with ⟨hc, _, _⟩ | ⟨hc, _, _⟩ | ⟨_, _, hr⟩ | ⟨hnone, _⟩
      · exact absurd (hc.symm.trans hk) kcr
      · exact absurd (hc.symm.trans hk) kvr
      · rw [hfall, hr]; rfl
      · exact absurd ⟨hk, h5⟩ (hnone
          { key := GDK_KEY_r, mod := GDK_CONTROL_MASK ||| GDK_SHIFT_MASK,
            func := some .command_reload } (by decide) rfl)
    · rcases hcases with ⟨_, _, hr⟩ | ⟨hc, _, _⟩ | ⟨hc, _, _⟩ | ⟨hnone, _⟩
      · rw [hfall, hr]; rfl
      · exact absurd (hk.symm.trans hc) kcv
      · exact absurd (hk.symm.trans hc) kcr
      · exact absurd ⟨hk, h5⟩ (hnone
          { key := GDK_KEY_c, mod := GDK_CONTROL_MASK ||| GDK_SHIFT_MASK,
            func := some .command_copy_clipboard } (by decide) rfl)
    · rcases hcases with ⟨hc, _, _⟩ | ⟨_, _, hr⟩ | ⟨hc, _, _⟩ | ⟨hnone, _⟩
      · exact absurd (hc.symm.trans hk) kcv
      · rw [hfall, hr]; rfl
      · exact absurd (hk.symm.trans hc) kvr
      · exact absurd ⟨hk, h5⟩ (hnone
          { key := GDK_KEY_v, mod := GDK_CONTROL_MASK ||| GDK_SHIFT_MASK,
            func := some .command_paste_clipboard } (by decide) rfl)
  · have hnot : ∀ k0, key = k0 → 5 &&& mod = 5 →
        (k0 = GDK_KEY_c ∨ k0 = GDK_KEY_v ∨ k0 = GDK_KEY_r) → False := by
      intro k0 hk h5 hin
      rcases hout with ⟨n1, n2, n3⟩ | hmask
      · rcases hin with rfl | rfl | rfl
        · exact n1 hk
        · exact n2 hk
        · exact n3 hk
      · exact hmask ((control_shift_iff mod).mpr h5)
    rcases hcases with ⟨hc, h5, _⟩ | ⟨hc, h5, _⟩ | ⟨hc, h5, _⟩ | ⟨_, hr⟩
    · exact (hnot _ hc h5 (Or.inl rfl)).elim
    · exact (hnot _ hc h5 (Or.inr (Or.inl rfl))).elim
    · exact (hnot _ hc h5 (Or.inr (Or.inr rfl))).elim
    · rw [hfall, hr]

/-- Scenario S5 on the stub: no script handler, the event is the reload key
with Control and Shift, the reload command is called once. -/
theorem perform_keymap_default_bindings_witness :
    ((stub_context.lua = Option.none ∧ stub_context = stub_context) ∨
      (stub_context.lua.isSome = true ∧
        (stub_env.keymap_perform stub_context GDK_KEY_r 5).ret = false ∧
        (stub_env.keymap_perform stub_context GDK_KEY_r 5).error = Option.none ∧
        stub_context = (stub_env.keymap_perform stub_context GDK_KEY_r 5).context)) ∧
    context_get_bool stub_env stub_context "ignore_default_keymap" = some false ∧
    GDK_CONTROL_MASK &&& 5 = GDK_CONTROL_MASK ∧ GDK_SHIFT_MASK &&& 5 = GDK_SHIFT_MASK ∧
    context_perform_keymap stub_env stub_context GDK_KEY_r 5
      = some (true, { stub_context with calls := [Call.command .command_reload] }) :=
  ⟨Or.inr (by decide), by decide, by decide, by decide,
    (((perform_keymap_default_bindings stub_env stub_context stub_context GDK_KEY_r 5
      (Or.inr (by decide)) (by decide)).1 (by decide) (by decide)).1 rfl).trans (by decide)⟩

/-- C18: `context_handle_signal` calls the theme-reload command once, on the
incoming state, when the signal name is `ReloadTheme`; for every other name,
a null name included, it hands back the state untouched (no command is
called). -/
theorem handle_signal_reload_theme (env : Env) (context : Context) :
    context_handle_signal env context (some "ReloadTheme")
      = env.command .command_reload_theme
          { context with calls := context.calls ++ [Call.command .command_reload_theme] } ∧
    (∀ signal_name : Option String, signal_name ≠ some "ReloadTheme" →
      context_handle_signal env context signal_name = context) := by
  constructor
  · simp [context_handle_signal, SIGNALS, handle_signal_loop, call_command]
  · intro signal_name hne
    have hb : (some "ReloadTheme" == signal_name) = false := by
      simpa using fun h => hne h.symm
    simp [context_handle_signal, SIGNALS, handle_signal_loop, hb]

theorem handle_signal_reload_theme_witness :
    (Option.none : Option String) ≠ some "ReloadTheme" ∧
    context_handle_signal stub_env stub_context Option.none = stub_context ∧
    (some "reloadtheme" : Option String) ≠ some "ReloadTheme" ∧
    context_handle_signal stub_env stub_context (some "reloadtheme") = stub_context ∧
    context_handle_signal stub_env stub_context (some "ReloadTheme")
      = { stub_context with calls := [Call.command .command_reload_theme] } :=
  ⟨by decide,
    (handle_signal_reload_theme stub_env stub_context).2 Option.none (by decide),
    by decide,
    (handle_signal_reload_theme stub_env stub_context).2 (some "reloadtheme") (by decide),
    (handle_signal_reload_theme stub_env stub_context).1.trans (by decide)⟩

/-! ## Palette entries in the default-restore pass -/

theorem find_name_some_of_mem (l : List MetaEntry) (x : MetaEntry) (hx : x ∈ l) :
    ∃ e1, l.find? (fun e => e.name == x.name) = some e1 := by
  induction l with
  | nil => simp at hx
  | cons y rest ih =>
    by_cases hy : y.name = x.name
    · exact ⟨y, by simp [List.find?, hy]⟩
    · have hb : (y.name == x.name) = false := by simpa using hy
      rcases List.mem_cons.mp hx with rfl | hin
      · exact absurd rfl hy
      · simpa [List.find?, hb] using ih hin

theorem restore_default_palette_spec (env : Env) (m : Meta) (n i : Nat)
    (palette : List GdkRGBA) (h : restore_default_palette env m n i = some palette) :
    palette.length = n ∧
    ∀ j, j < n → ∃ e s, meta_get_entry m ("color_" ++ toString (i + j)) = some e ∧
      e.default_str = some s ∧ env.gdk_rgba_parse s = palette[j]? := by
  induction n generalizing i palette with
  | zero =>
    simp only [restore_default_palette, Option.some.injEq] at h
    subst h
    exact ⟨rfl, fun j hj => absurd hj (Nat.not_lt_zero j)⟩
  | succ n ih =>
    simp only [restore_default_palette] at h
    cases he : meta_get_entry m ("color_" ++ toString i) with
    | none => simp [he] at h
    | some e =>
      simp only [he] at h
      cases hs : e.default_str with
      | none => simp [hs] at h
      | some s =>
        simp only [hs] at h
        cases hc : env.gdk_rgba_parse s with
        | none => simp [hc] at h
        | some c =>
          simp only [hc] at h
          cases hr : restore_default_palette env m n (i + 1) with
          | none => simp [hr] at h
          | some rest =>
            simp only [hr, Option.some.injEq] at h
            subst h
            obtain ⟨hlen, hent⟩ := ih (i + 1) rest hr
            refine ⟨by simp [hlen], fun j hj => ?_⟩
            cases j with
            | zero => exact ⟨e, s, by simpa using he, hs, by simpa using hc⟩
            | succ j =>
              obtain ⟨e1, s1, h1, h2, h3⟩ := hent j (by omega)
              refine ⟨e1, s1, ?_, h2, by simpa using h3⟩
              have : i + (j + 1) = i + 1 + j := by omega
              rw [this]; exact h1

/-- A name made of `color_` and text that starts with a decimal digit is
skipped by the first loop of `context_restore_default`. -/
theorem restore_default_skips_of_digit (name : String) (d : Char) (ds : List Char)
    (hname : name.toList = "color_".toList ++ d :: ds) (hd : d.isDigit = true) :
    restore_default_skips name = true := by
  have hsp : ISSPACE d = false := by
    by_contra hcon
    have hsp : ISSPACE d = true := by simpa using hcon
    simp only [ISSPACE, Bool.or_eq_true, beq_iff_eq] at hsp
    rcases hsp with ((((h | h) | h) | h) | h) | h <;> subst h <;>
      exact absurd hd (by decide)
  have hm : d ≠ '-' := by
    rintro rfl; exact absurd hd (by decide)
  have hp : d ≠ '+' := by
    rintro rfl; exact absurd hd (by decide)
  have htake : name.toList.take 6 = "color_".toList := by
    rw [hname]; rfl
  have hdrop : name.toList.drop 6 = d :: ds := by
    rw [hname]; rfl
  unfold restore_default_skips
  rw [htake, hdrop]
  simp only [beq_self_eq_true, if_true, g_ascii_strtoull_end]
  have hdw : List.dropWhile ISSPACE (d :: ds) = d :: ds := by
    simp [List.dropWhile, hsp]
  rw [hdw]
  have hmatch : (match d :: ds with
      | '-' :: r => r
      | '+' :: r => r
      | _ => d :: ds) = d :: ds := by
    split
    · next r heq => exact absurd (List.cons.inj heq).1 hm
    · next r heq => exact absurd (List.cons.inj heq).1 hp
    · rfl
  simp only [hmatch, List.takeWhile, hd, List.isEmpty_cons, Bool.false_eq_true, if_false]
  simp

/-- C15 (the code against the claim): the names `color_1x`, `color_ 1` and
`color_+1` are not `color_` followed by an integer and nothing else, yet the
loop skips them like `color_1`, while `color_scheme` is not skipped; on the
sample state with the entry `color_1x` (default `#123456`) the pass leaves
the store value `#ffffff` in place: the default is not written. -/
theorem restore_default_skips_loose :
    restore_default_skips "color_1" = true ∧
    restore_default_skips "color_scheme" = false ∧
    restore_default_skips "color_1x" = true ∧
    restore_default_skips "color_ 1" = true ∧
    restore_default_skips "color_+1" = true ∧
    meta_get_entry stub_context_odd.meta "color_1x"
      = some { name := "color_1x", default_value := .str "#123456",
               getter := Option.none, setter := Option.none } ∧
    (context_restore_default stub_env stub_context_odd).bind
      (fun c => context_get_str stub_env c "color_1x") = some "#ffffff" := by
  decide

/-- C16: on a schema that declares the sixteen palette entries with colour
defaults, and with local setter hooks, `context_restore_default` completes;
its last action, after the loop over the schema has written the other
defaults (state `c1`), is one `vte_terminal_set_colors` call with a palette of
exactly 16 entries whose entry `i` is the parse of the schema default of
`color_i`, for `i` from 0 to 15. -/
theorem restore_default_installs_palette (env : Env) (context : Context)
    (hl : env.setters_local)
    (hpal : (restore_default_palette env context.meta 16 0).isSome = true) :
    ∃ c1 palette, restore_default_loop env context.meta.list context = some c1 ∧
      context_restore_default env context
        = some { c1 with calls := c1.calls ++ [Call.set_colors palette] } ∧
      palette.length = 16 ∧
      ∀ i, i < 16 → ∃ e s, meta_get_entry context.meta ("color_" ++ toString i) = some e ∧
        e.default_str = some s ∧ env.gdk_rgba_parse s = palette[i]? := by
  have hw := fun c c1 x => restore_default_round_local env hl c c1 x
  obtain ⟨c1, hc1⟩ := run_rounds_total (restore_default_round env) hw
    (fun c x e1 h => restore_default_round_total env c x e1 h) context.meta.list context
    (fun x hx => find_name_some_of_mem context.meta.list x hx)
  obtain ⟨hm, _, _⟩ := run_rounds_frame (restore_default_round env) hw _ _ _ hc1
  obtain ⟨palette, hp⟩ := Option.isSome_iff_exists.mp hpal
  obtain ⟨hlen, hent⟩ := restore_default_palette_spec env context.meta 16 0 palette hp
  refine ⟨c1, palette, by rw [restore_default_loop_eq]; exact hc1, ?_, hlen, ?_⟩
  · simp [context_restore_default, restore_default_loop_eq, hc1, hm, hp]
  · intro i hi
    obtain ⟨e, s, h1, h2, h3⟩ := hent i hi
    exact ⟨e, s, by simpa using h1, h2, h3⟩

theorem restore_default_installs_palette_witness :
    stub_env.setters_local ∧
    (restore_default_palette stub_env stub_context.meta 16 0).isSome = true ∧
    (context_restore_default stub_env stub_context).map (fun c => c.calls)
      = some [Call.set_colors
          (List.replicate 16 { red := 7, green := 0, blue := 0, alpha := 65535 })] ∧
    (∃ c1 palette,
      restore_default_loop stub_env stub_context.meta.list stub_context = some c1 ∧
      context_restore_default stub_env stub_context
        = some { c1 with calls := c1.calls ++ [Call.set_colors palette] } ∧
      palette.length = 16) :=
  ⟨stub_env_setters_local, by decide, by decide,
    (restore_default_installs_palette stub_env stub_context stub_env_setters_local
      (by decide)).imp
      (fun _ h => h.imp (fun _ h2 => ⟨h2.1, h2.2.1, h2.2.2.1⟩))⟩

theorem context_set_str_state (env : Env)
    (hset : ∀ (f : Nat) (c : Context) (k v : String), (env.str_setter f c k v).state = c.state)
    (c c1 : Context) (k v : String) (h : context_set_str env c k v = some c1) :
    c1.state = c.state := by
  unfold context_set_str at h
  cases he : meta_get_entry c.meta k with
  | none => simp [he] at h
  | some e =>
    simp only [he] at h
    cases hs : e.setter with
    | some f =>
      simp only [hs, Option.some.injEq] at h
      subst h; exact hset f c k v
    | none =>
      simp only [hs] at h
      cases hg : e.getter with
      | some g => simp only [hg, Option.some.injEq] at h; subst h; rfl
      | none => simp only [hg, Option.some.injEq] at h; subst h; rfl

theorem load_theme_loop_state (env : Env)
    (hset : ∀ (f : Nat) (c : Context) (k v : String), (env.str_setter f c k v).state = c.state)
    (entries : List (LuaValue × LuaValue)) (c c1 : Context)
    (h : load_theme_loop env entries c = some c1) : c1.state = c.state := by
  induction entries generalizing c with
  | nil =>
    simp only [load_theme_loop, Option.some.injEq] at h
    subst h; rfl
  | cons kv rest ih =>
    obtain ⟨k, v⟩ := kv
    simp only [load_theme_loop] at h
    cases hv : lua_tostring v with
    | none => simp only [hv] at h; exact ih c h
    | some vs =>
      simp only [hv] at h
      cases hk : lua_tostring k with
      | none => simp [hk] at h
      | some ks =>
        simp only [hk] at h
        split at h
        · exact ih c h
        · cases hw : context_set_str env c ks vs with
          | none => simp [hw] at h
          | some c2 =>
            simp only [hw] at h
            exact (ih c2 h).trans (context_set_str_state env hset c c2 ks vs hw)

/-- C17 (as stated, refuted): the theme script of this stub asks for a reload
of the config. Entered with the flag clear, `context_load_theme` runs it with
the flag still clear: the reload is not rejected, the config script runs
inside the theme script and sets `foo`. (Entered with the flag set, the same
reload is rejected and `foo` keeps its default.) -/
theorem load_theme_flag_not_set :
    stub_context.state.loading = false ∧
    (context_load_theme stub_env_theme_reloads stub_context).bind
      (fun c => context_get_str stub_env c "foo") = some "set by config" ∧
    (context_load_theme stub_env_theme_reloads
      { stub_context with state := { loading := true } }).bind
      (fun c => context_get_str stub_env c "foo") = some "x" := by
  decide

/-- C17 (amended): `context_load_theme` does not touch the loading flag. When
no script is run (no interpreter, path suppressed, file missing, file not
loadable) it hands back the state it was given. Otherwise the theme script is
run on the state as it was on entry, flag included, and, with string setters
that leave the member `state` alone, every state the function hands back
carries the `state` member that the script left. -/
theorem load_theme_leaves_flag (env : Env) (context : Context) :
    (context.lua = Option.none → context_load_theme env context = some context) ∧
    (context_acquire_theme_path env context = Option.none →
      context_load_theme env context = some context) ∧
    (∀ p, context_acquire_theme_path env context = some p →
      (env.g_file_test_exists p = false ∨ env.luaL_loadfile context p = false) →
      context_load_theme env context = some context) ∧
    (∀ L p, context.lua = some L → context_acquire_theme_path env context = some p →
      env.g_file_test_exists p = true → env.luaL_loadfile context p = true →
      (∀ (f : Nat) (c : Context) (k v : String), (env.str_setter f c k v).state = c.state) →
      ∀ c1, context_load_theme env context = some c1 →
        c1.state = (env.lua_pcall context p).context.state) := by
  refine ⟨?_, ?_, ?_, ?_⟩
  · intro hlua
    simp [context_load_theme, hlua]
  · intro hp
    unfold context_load_theme
    cases context.lua <;> simp [hp]
  · intro p hp hor
    unfold context_load_theme
    cases context.lua with
    | none => rfl
    | some L =>
      simp only [hp]
      rcases hor with h | h
      · simp [h]
      · by_cases hex : env.g_file_test_exists p = true <;> simp [hex, h]
  · intro L p hlua hp hex hload hset c1 h
    simp only [context_load_theme, hlua, hp, hex, hload, Bool.not_true, Bool.false_eq_true,
      if_false] at h
    by_cases hst : (env.lua_pcall context p).status = LUA_OK
    · simp only [hst, bne_self_eq_false, Bool.false_eq_true, if_false] at h
      cases hres : (env.lua_pcall context p).result with
      | value v =>
        simp only [hres, Option.some.injEq] at h
        subst h; rfl
      | table entries =>
        simp only [hres] at h
        exact load_theme_loop_state env hset entries _ c1 h
    · have hb : ((env.lua_pcall context p).status != LUA_OK) = true := by simpa using hst
      simp only [hb, if_true, context_on_lua_error, context_notify] at h
      cases hicon : config_get_str (env.lua_pcall context p).context.config "icon" with
      | none => simp [hicon] at h
      | some icon =>
        simp only [hicon, Option.some.injEq] at h
        subst h; rfl

theorem load_theme_leaves_flag_witness :
    stub_context.lua = some { id := 0 } ∧
    context_acquire_theme_path stub_env stub_context
      = some "/home/user/.config/tym/theme.lua" ∧
    (∃ c1, context_load_theme stub_env stub_context = some c1 ∧
      c1.state = (stub_env.lua_pcall stub_context
        "/home/user/.config/tym/theme.lua").context.state ∧
      c1.state.loading = false) :=
  ⟨rfl, by decide,
    ⟨stub_context, by decide,
      (load_theme_leaves_flag stub_env stub_context).2.2.2 { id := 0 }
        "/home/user/.config/tym/theme.lua" rfl (by decide) (by decide) (by decide)
        (fun _ _ _ _ => rfl) stub_context (by decide),
      rfl⟩⟩

/-- C19: given that the two properties the function may read are readable
on the state `c1` left by the script keymap (`c1` is the incoming state when
the interpreter is absent), `context_perform_keymap` returns, and its result
is true iff a script handler matched and returned false, or the script keymap
reported an error, or `ignore_default_keymap` reads false and some default
binding matches the event; when a handler returns true while
`ignore_default_keymap` reads true the result is false and the state is `c1`
untouched (no default command is called). -/
theorem perform_keymap_result (env : Env) (context c1 : Context) (key mod : Nat)
    (ig : Bool) (icon : String)
    (hc1 : c1 = match context.lua with
      | some _ => (env.keymap_perform context key mod).context
      | Option.none => context)
    (hig : context_get_bool env c1 "ignore_default_keymap" = some ig)
    (hicon : config_get_str c1.config "icon" = some icon) :
    ∃ b c, context_perform_keymap env context key mod = some (b, c) ∧
      (b = true ↔
        ((context.lua.isSome = true ∧ (env.keymap_perform context key mod).ret = true ∧
            (env.keymap_perform context key mod).result = false) ∨
          (context.lua.isSome = true ∧ (env.keymap_perform context key mod).ret = false ∧
            (env.keymap_perform context key mod).error.isSome = true) ∨
          (ig = false ∧ ∃ pair ∈ DEFAULT_KEY_PAIRS, pair.func.isSome = true ∧
            key = pair.key ∧ pair.mod &&& mod = pair.mod))) ∧
      (context.lua.isSome = true → (env.keymap_perform context key mod).ret = true →
        (env.keymap_perform context key mod).result = true → ig = true →
        b = false ∧ c = c1) := by
  have hdef : ∀ c0 : Context,
      ((context_perform_default env c0 key mod).1 = true ↔
        ∃ pair ∈ DEFAULT_KEY_PAIRS, pair.func.isSome = true ∧
          key = pair.key ∧ pair.mod &&& mod = pair.mod) := by
    intro c0
    rcases perform_default_cases env c0 key mod with
      ⟨hk, hm, hr⟩ | ⟨hk, hm, hr⟩ | ⟨hk, hm, hr⟩ | ⟨hnone, hr⟩
    · rw [hr]
      exact ⟨fun _ => ⟨⟨GDK_KEY_c, 5, some .command_copy_clipboard⟩, by decide, rfl, hk, hm⟩,
        fun _ => rfl⟩
    · rw [hr]
      exact ⟨fun _ => ⟨⟨GDK_KEY_v, 5, some .command_paste_clipboard⟩, by decide, rfl, hk, hm⟩,
        fun _ => rfl⟩
    · rw [hr]
      exact ⟨fun _ => ⟨⟨GDK_KEY_r, 5, some .command_reload⟩, by decide, rfl, hk, hm⟩,
        fun _ => rfl⟩
    · rw [hr]
      exact ⟨fun h => by simp at h,
        fun ⟨pair, hp, hf, hk, hm⟩ => absurd ⟨hk, hm⟩ (hnone pair hp hf)⟩
  -- the tail of the function, on the state `c1`
  have htail : ∃ b c, perform_keymap_default env c1 key mod = some (b, c) ∧
      (b = true ↔ (ig = false ∧ ∃ pair ∈ DEFAULT_KEY_PAIRS, pair.func.isSome = true ∧
        key = pair.key ∧ pair.mod &&& mod = pair.mod)) ∧
      (ig = true → b = false ∧ c = c1) := by
    cases ig with
    | true =>
      exact ⟨false, c1, by simp [perform_keymap_default, hig], by simp, fun _ => ⟨rfl, rfl⟩⟩
    | false =>
      refine ⟨(context_perform_default env c1 key mod).1,
        (context_perform_default env c1 key mod).2,
        by simp [perform_keymap_default, hig], ?_, fun h => by simp at h⟩
      rw [hdef c1]; simp
  cases hlua : context.lua with
  | none =>
    simp only [hlua] at hc1
    obtain ⟨b, c, hbc, hiff, _⟩ := htail
    refine ⟨b, c, by simp only [context_perform_keymap, hlua]; rw [← hc1]; exact hbc, ?_, ?_⟩
    · rw [hiff]; simp
    · intro h; simp at h
  | some L =>
    simp only [hlua] at hc1
    cases hret : (env.keymap_perform context key mod).ret with
    | true =>
      cases hres : (env.keymap_perform context key mod).result with
      | false =>
        refine ⟨true, c1, by simp [context_perform_keymap, hlua, hret, hres, hc1], ?_, ?_⟩
        · simp
        · intro _ _ h; simp at h
      | true =>
        obtain ⟨b, c, hbc, hiff, hign⟩ := htail
        refine ⟨b, c, ?_, ?_, fun _ _ _ h => hign h⟩
        · simp only [context_perform_keymap, hlua, hret, hres, Bool.not_true,
            Bool.false_eq_true, if_true, if_false]
          rw [← hc1]; exact hbc
        · rw [hiff]; simp
    | false =>
      cases herr : (env.keymap_perform context key mod).error with
      | some error =>
        rw [hc1] at hicon
        refine ⟨true,
          { (env.keymap_perform context key mod).context with
            calls := (env.keymap_perform context key mod).context.calls ++
              [Call.notification "tym: lua error" error icon] }, by
          simp [context_perform_keymap, hlua, hret, herr, context_on_lua_error,
            context_notify, notification_call, hicon], ?_, ?_⟩
        · simp
        · intro _ h; simp at h
      | none =>
        obtain ⟨b, c, hbc, hiff, _⟩ := htail
        refine ⟨b, c, ?_, ?_, fun _ h => by simp at h⟩
        · simp only [context_perform_keymap, hlua, hret, herr, Bool.false_eq_true, if_false]
          rw [← hc1]; exact hbc
        · rw [hiff]; simp

theorem perform_keymap_result_witness :
    context_get_bool stub_env (stub_context_ignoring 1) "ignore_default_keymap" = some true ∧
    config_get_str (stub_context_ignoring 1).config "icon" = some "utilities-terminal" ∧
    (∃ b c, context_perform_keymap stub_env (stub_context_ignoring 1) GDK_KEY_c 5
        = some (b, c) ∧ b = false ∧ c = stub_context_ignoring 1) :=
  ⟨by decide, by decide,
    (perform_keymap_result stub_env (stub_context_ignoring 1) (stub_context_ignoring 1)
      GDK_KEY_c 5 true "utilities-terminal" (by decide) (by decide) (by decide)).imp
      (fun _ h => h.imp (fun _ h2 =>
        ⟨h2.1, (h2.2.2 (by decide) (by decide) (by decide) rfl).1,
          (h2.2.2 (by decide) (by decide) (by decide) rfl).2⟩))⟩

theorem run_rounds_invariant {α : Type} (w : Context → MetaEntry → Option Context)
    (f : Context → α) (hw : ∀ c c1 e, w c e = some c1 → f c1 = f c)
    (l : List MetaEntry) (c c1 : Context) (h : run_rounds w l c = some c1) : f c1 = f c := by
  induction l generalizing c with
  | nil =>
    simp only [run_rounds, Option.some.injEq] at h
    subst h; rfl
  | cons x rest ih =>
    simp only [run_rounds] at h
    cases hx : w c x with
    | none => simp [hx] at h
    | some c2 =>
      simp only [hx] at h
      exact (ih c2 h).trans (hw c c2 x hx)

theorem restore_default_round_schema (env : Env) (hks : env.setters_keep_schema)
    (c c1 : Context) (e : MetaEntry) (h : restore_default_round env c e = some c1) :
    c1.config.schema = c.config.schema := by
  unfold restore_default_round at h
  by_cases hskip : restore_default_skips e.name = true
  · simp only [hskip, if_true, Option.some.injEq] at h
    subst h; rfl
  · simp only [hskip, Bool.false_eq_true, if_false] at h
    cases hd : e.default_value with
    | str s =>
      rw [hd] at h
      simp only [context_set_str] at h
      cases he : meta_get_entry c.meta e.name with
      | none => simp [he] at h
      | some e1 =>
        simp only [he] at h
        cases hs : e1.setter with
        | some f => simp only [hs, Option.some.injEq] at h; subst h; exact hks.1 f c _ s
        | none =>
          simp only [hs] at h
          cases hg : e1.getter <;> simp only [hg, Option.some.injEq] at h <;> subst h <;> rfl
    | int i =>
      rw [hd] at h
      simp only [context_set_int] at h
      cases he : meta_get_entry c.meta e.name with
      | none => simp [he] at h
      | some e1 =>
        simp only [he] at h
        cases hs : e1.setter with
        | some f => simp only [hs, Option.some.injEq] at h; subst h; exact hks.2.1 f c _ i
        | none =>
          simp only [hs] at h
          cases hg : e1.getter <;> simp only [hg, Option.some.injEq] at h <;> subst h <;> rfl
    | bool b =>
      rw [hd] at h
      simp only [context_set_bool] at h
      cases he : meta_get_entry c.meta e.name with
      | none => simp [he] at h
      | some e1 =>
        simp only [he] at h
        cases hs : e1.setter with
        | some f => simp only [hs, Option.some.injEq] at h; subst h; exact hks.2.2 f c _ b
        | none =>
          simp only [hs] at h
          cases hg : e1.getter <;> simp only [hg, Option.some.injEq] at h <;> subst h <;> rfl
    | none =>
      rw [hd] at h
      simp only [Option.some.injEq] at h
      subst h; rfl

theorem stub_env_setters_keep_schema : stub_env.setters_keep_schema :=
  ⟨fun _ _ _ _ => rfl, fun _ _ _ _ => rfl, fun _ _ _ _ => rfl⟩

/-- C20: on a schema with one entry per name that declares the sixteen
palette entries with colour defaults, and with setter hooks that are local
and leave the schema of the store alone, let `e` be a schema entry without
getter whose name is `color_` followed by a number. The round of the
default-restore pass for `e` writes nothing (it hands back the state it was
given), the pass completes, and `context_get_str(e.name)` after the pass
equals `context_get_str(e.name)` before it, while the palette installed by
the pass is the one built from the schema defaults. -/
theorem restore_default_keeps_color (env : Env) (context : Context) (e : MetaEntry)
    (d : Char) (ds : List Char)
    (hl : env.setters_local) (hks : env.setters_keep_schema)
    (hu : context.meta.names_unique)
    (hpal : (restore_default_palette env context.meta 16 0).isSome = true)
    (he : e ∈ context.meta.list) (hg : e.getter = Option.none)
    (hname : e.name.toList = "color_".toList ++ d :: ds) (hd : d.isDigit = true) :
    (∀ c, restore_default_round env c e = some c) ∧
    ∃ c1 palette, restore_default_loop env context.meta.list context = some c1 ∧
      restore_default_palette env context.meta 16 0 = some palette ∧
      context_restore_default env context
        = some { c1 with calls := c1.calls ++ [Call.set_colors palette] } ∧
      context_get_str env { c1 with calls := c1.calls ++ [Call.set_colors palette] } e.name
        = context_get_str env context e.name := by
  have hskip : restore_default_skips e.name = true :=
    restore_default_skips_of_digit e.name d ds hname hd
  have hround : ∀ c, restore_default_round env c e = some c := by
    intro c; simp [restore_default_round, hskip]
  refine ⟨hround, ?_⟩
  have hw := fun c c1 x => restore_default_round_local env hl c c1 x
  obtain ⟨c1, hc1⟩ := run_rounds_total (restore_default_round env) hw
    (fun c x e1 h => restore_default_round_total env c x e1 h) context.meta.list context
    (fun x hx => ⟨x, meta_get_entry_of_mem context.meta hu x hx⟩)
  obtain ⟨hm, _, _⟩ := run_rounds_frame (restore_default_round env) hw _ _ _ hc1
  obtain ⟨palette, hp⟩ := Option.isSome_iff_exists.mp hpal
  have hschema : c1.config.schema = context.config.schema :=
    run_rounds_invariant (restore_default_round env) (fun c => c.config.schema)
      (fun c c2 x h => restore_default_round_schema env hks c c2 x h) _ _ _ hc1
  have hslots : c1.config.slots e.name = context.config.slots e.name :=
    run_rounds_slot (restore_default_round env) hw e context.meta context.option
      (context.config.slots e.name) (fun sl => sl = context.config.slots e.name)
      (fun c c2 _ _ hs hr => by
        rw [hround c, Option.some.injEq] at hr
        subst hr; exact hs)
      context.meta.list context c1 hu he rfl rfl rfl hc1
  refine ⟨c1, palette, by rw [restore_default_loop_eq]; exact hc1, hp, ?_, ?_⟩
  · simp [context_restore_default, restore_default_loop_eq, hc1, hm, hp]
  · have hent : meta_get_entry context.meta e.name = some e :=
      meta_get_entry_of_mem context.meta hu e he
    have hstr : c1.config.strs.lookup e.name = context.config.strs.lookup e.name :=
      congrArg Prod.fst hslots
    simp only [context_get_str, hm, hent, hg, config_get_str, hstr, hschema]

/-- A theme has set `color_1`; the pass leaves that value readable while the
palette it installs holds the sixteen schema defaults. -/
theorem restore_default_keeps_color_witness :
    stub_env.setters_local ∧ stub_env.setters_keep_schema ∧
    stub_context_themed.meta.names_unique ∧
    (restore_default_palette stub_env stub_context_themed.meta 16 0).isSome = true ∧
    context_get_str stub_env stub_context_themed "color_1" = some "#ff0000" ∧
    (context_restore_default stub_env stub_context_themed).bind
      (fun c => context_get_str stub_env c "color_1") = some "#ff0000" ∧
    (∃ c1 palette,
      restore_default_loop stub_env stub_context_themed.meta.list stub_context_themed
        = some c1 ∧
      restore_default_palette stub_env stub_context_themed.meta 16 0 = some palette ∧
      context_restore_default stub_env stub_context_themed
        = some { c1 with calls := c1.calls ++ [Call.set_colors palette] } ∧
      context_get_str stub_env { c1 with calls := c1.calls ++ [Call.set_colors palette] }
          "color_1"
        = context_get_str stub_env stub_context_themed "color_1") :=
  ⟨stub_env_setters_local, stub_env_setters_keep_schema, by decide, by decide, by decide,
    by decide,
    (restore_default_keeps_color stub_env stub_context_themed
      { name := "color_1", default_value := .str "#000000", getter := Option.none,
        setter := Option.none } '1' []
      stub_env_setters_local stub_env_setters_keep_schema (by decide) (by decide)
      (by decide) rfl (by decide) (by decide)).2⟩

end Tym
